import Mathlib

/-!
Verification model of the ESP32 IEEE 802.15.4 transceiver library.

The definitions below are a shallow embedding of the C++ sources:
  * `src/Frame.h`, `src/Frame.cpp` — the frame codec (`Frame::parse`, `Frame::build`);
  * `src/RingBuffer.h` — the circular byte buffer;
  * `src/ESP32TransceiverIEEE802_15_4.{h,cpp}` — `transmit_channel`,
    `incrementSequenceNumber`, `setAutoIncrementSequenceNumber`;
  * `src/ESP32TransceiverStreamIEEE802_15_4.h` — `receive`, `read`,
    `sendWithConfirmations`.

Machine integers are modelled as `Nat` with explicit `% 2^w` where the C code
can wrap (`uint8_t` stores, the `size_t` underflow `data[0] - 1`).  Raw input
memory for `Frame::parse` is a total function `Nat → Nat`; reading a byte goes
through `byteAt`, which truncates to `% 256` exactly as the `uint8_t*` type
does in C.
-/

namespace Ieee802154

/-- Model of `SIZE_MAX` on the 64-bit ESP32 toolchain: the value of the C
expression `(size_t)(-1)`. -/
def SIZE_MAX64 : Nat := 2 ^ 64 - 1

/-- Reading one byte from raw memory through a `uint8_t*`: values are
truncated to 8 bits by the type. -/
def byteAt (data : Nat → Nat) (i : Nat) : Nat := data i % 256

/-- Model of `FrameControlField` from `src/Frame.h`: the packed 16-bit FCF.  Each C
bit-field is a `Nat`; well-formedness (`FrameControlField.wf`) bounds each
field by its bit width, which the C bit-field types enforce by construction. -/
structure FrameControlField where
  frameType : Nat := 1
  securityEnabled : Nat := 0
  framePending : Nat := 0
  ackRequest : Nat := 0
  panIdCompression : Nat := 0
  reserved : Nat := 0
  sequenceNumberSuppression : Nat := 0
  informationElementsPresent : Nat := 0
  destAddrMode : Nat := 0
  frameVersion : Nat := 1
  srcAddrMode : Nat := 0
  deriving Repr, DecidableEq

/-- Bit-width bounds guaranteed by the C bit-field declarations
(`uint8_t x : 3` etc.). -/
def FrameControlField.wf (fcf : FrameControlField) : Prop :=
  fcf.frameType < 8 ∧ fcf.securityEnabled < 2 ∧ fcf.framePending < 2 ∧
  fcf.ackRequest < 2 ∧ fcf.panIdCompression < 2 ∧ fcf.reserved < 2 ∧
  fcf.sequenceNumberSuppression < 2 ∧ fcf.informationElementsPresent < 2 ∧
  fcf.destAddrMode < 4 ∧ fcf.frameVersion < 4 ∧ fcf.srcAddrMode < 4

instance (fcf : FrameControlField) : Decidable fcf.wf := by
  unfold FrameControlField.wf; infer_instance

/-- First byte of the serialized FCF (bits 0-7, LSB-first allocation as laid
out by the packed struct that `memcpy` copies verbatim). -/
def FrameControlField.byte0 (fcf : FrameControlField) : Nat :=
  fcf.frameType + 8 * fcf.securityEnabled + 16 * fcf.framePending +
    32 * fcf.ackRequest + 64 * fcf.panIdCompression + 128 * fcf.reserved

/-- Second byte of the serialized FCF (bits 8-15). -/
def FrameControlField.byte1 (fcf : FrameControlField) : Nat :=
  fcf.sequenceNumberSuppression + 2 * fcf.informationElementsPresent +
    4 * fcf.destAddrMode + 16 * fcf.frameVersion + 64 * fcf.srcAddrMode

/-- The two wire bytes of the FCF, as `memcpy(buffer + offset, &fcf, 2)`
produces them. -/
def encodeFcf (fcf : FrameControlField) : List Nat := [fcf.byte0, fcf.byte1]

/-- Reconstructing the FCF from its two wire bytes, as
`memcpy(&frame->fcf, data + offset, 2)` does. -/
def decodeFcf (b0 b1 : Nat) : FrameControlField where
  frameType := b0 % 8
  securityEnabled := b0 / 8 % 2
  framePending := b0 / 16 % 2
  ackRequest := b0 / 32 % 2
  panIdCompression := b0 / 64 % 2
  reserved := b0 / 128 % 2
  sequenceNumberSuppression := b1 % 2
  informationElementsPresent := b1 / 2 % 2
  destAddrMode := b1 / 4 % 4
  frameVersion := b1 / 16 % 4
  srcAddrMode := b1 / 64 % 4

/-- Address length selected by an FCF address mode, as both `Frame::parse`
and `Frame::build` compute it (`SHORT` = 2, `EXTENDED` = 8, otherwise 0). -/
def addrLenOf (mode : Nat) : Nat := if mode = 2 then 2 else if mode = 3 then 8 else 0

/-- The two little-endian wire bytes of a 16-bit PAN id
(`pan & 0xFF`, `(pan >> 8) & 0xFF`). -/
def panBytes (pan : Nat) : List Nat := [pan % 256, pan / 256 % 256]

/-- Model of `Frame` from `src/Frame.h`.  The fixed 8-byte C address arrays are
modelled by the list of their meaningful bytes (the first `destAddrLen` /
`srcAddrLen` bytes); the payload pointer + length pair is the payload list. -/
structure Frame where
  fcf : FrameControlField := {}
  sequenceNumber : Nat := 0
  destPanId : Nat := 0
  destAddress : List Nat := []
  srcPanId : Nat := 0
  srcAddress : List Nat := []
  destAddrLen : Nat := 0
  srcAddrLen : Nat := 0
  payload : List Nat := []
  deriving Repr, DecidableEq

/-- Sequence-number bytes emitted by `Frame::build` (one byte unless
suppression is set). -/
def Frame.seqBytes (f : Frame) : List Nat :=
  if f.fcf.sequenceNumberSuppression = 0 then [f.sequenceNumber] else []

/-- Destination PAN bytes emitted by `Frame::build` (present whenever a
destination address mode is set). -/
def Frame.destPanBytes (f : Frame) : List Nat :=
  if f.fcf.destAddrMode ≠ 0 then panBytes f.destPanId else []

/-- Destination address bytes emitted by `Frame::build`. -/
def Frame.destAddrBytes (f : Frame) : List Nat :=
  f.destAddress.take (addrLenOf f.fcf.destAddrMode)

/-- Source PAN bytes emitted by `Frame::build` (omitted under PAN-id
compression or when there is no source address). -/
def Frame.srcPanBytes (f : Frame) : List Nat :=
  if f.fcf.srcAddrMode ≠ 0 ∧ f.fcf.panIdCompression = 0 then panBytes f.srcPanId else []

/-- Source address bytes emitted by `Frame::build`. -/
def Frame.srcAddrBytes (f : Frame) : List Nat :=
  f.srcAddress.take (addrLenOf f.fcf.srcAddrMode)

/-- Everything `Frame::build` writes after the length byte: FCF, optional
sequence number, optional PAN ids and addresses, payload, trailing `0x00`. -/
def Frame.bodyBytes (f : Frame) : List Nat :=
  encodeFcf f.fcf ++ f.seqBytes ++ f.destPanBytes ++ f.destAddrBytes ++
    f.srcPanBytes ++ f.srcAddrBytes ++ f.payload ++ [0]

/-- The value `Frame::build` returns: the final `offset`, i.e. the total
number of bytes written (length byte + body). -/
def Frame.buildLen (f : Frame) : Nat := 1 + f.bodyBytes.length

/-- The buffer contents produced by `Frame::build`.  The length byte is the
total size stored into a `uint8_t`, hence the `% 256`. -/
def Frame.buildBytes (f : Frame) : List Nat := f.buildLen % 256 :: f.bodyBytes

/-- Header length (FCF + optional fields) implied by an FCF; the built
frame's total size is this plus the payload length plus 2 (length byte and
trailing terminator). -/
def FrameControlField.headerLen (fcf : FrameControlField) : Nat :=
  2 + (if fcf.sequenceNumberSuppression = 0 then 1 else 0) +
    (if fcf.destAddrMode ≠ 0 then 2 else 0) + addrLenOf fcf.destAddrMode +
    (if fcf.srcAddrMode ≠ 0 ∧ fcf.panIdCompression = 0 then 2 else 0) +
    addrLenOf fcf.srcAddrMode

/-- Internal consistency of a `Frame` value: the bit-field bounds, address
modes among None/Short/Extended with address data and stored lengths
matching the FCF modes, byte-valued stored data, a zero sequence number when
suppressed, PAN ids that are 16-bit and zero when the corresponding address
is absent, and compressed source PAN equal to the destination PAN. -/
def Frame.wf (f : Frame) : Prop :=
  f.fcf.wf ∧
  (f.fcf.destAddrMode = 0 ∨ f.fcf.destAddrMode = 2 ∨ f.fcf.destAddrMode = 3) ∧
  (f.fcf.srcAddrMode = 0 ∨ f.fcf.srcAddrMode = 2 ∨ f.fcf.srcAddrMode = 3) ∧
  f.destAddress.length = addrLenOf f.fcf.destAddrMode ∧
  f.srcAddress.length = addrLenOf f.fcf.srcAddrMode ∧
  f.destAddrLen = addrLenOf f.fcf.destAddrMode ∧
  f.srcAddrLen = addrLenOf f.fcf.srcAddrMode ∧
  f.sequenceNumber < 256 ∧
  (f.fcf.sequenceNumberSuppression ≠ 0 → f.sequenceNumber = 0) ∧
  f.destPanId < 65536 ∧ f.srcPanId < 65536 ∧
  (f.fcf.destAddrMode = 0 → f.destPanId = 0) ∧
  (f.fcf.srcAddrMode = 0 → f.srcPanId = 0) ∧
  (f.fcf.srcAddrMode ≠ 0 → f.fcf.panIdCompression ≠ 0 → f.srcPanId = f.destPanId) ∧
  (∀ b ∈ f.destAddress, b < 256) ∧ (∀ b ∈ f.srcAddress, b < 256) ∧
  (∀ b ∈ f.payload, b < 256)

instance (f : Frame) : Decidable f.wf := by
  unfold Frame.wf; infer_instance

/-- Raw-memory view of a byte list: position `i` holds the list entry, and
memory past the end reads as zero. -/
def dataOf (l : List Nat) : Nat → Nat := fun i => l.getD i 0

/-- The `n` bytes starting at `off` (the bytes a `memcpy` of `n` bytes from
`data + off` copies, or the payload window `parse` exposes). -/
def readSlice (data : Nat → Nat) (off n : Nat) : List Nat :=
  (List.range n).map fun k => byteAt data (off + k)

/-- The `n` input positions starting at `off`. -/
def sliceIdx (off n : Nat) : List Nat := (List.range n).map fun k => off + k

/-- Result of the header part of `Frame::parse`.  The payload, which the C
code exposes as a pointer + length into the input, is recorded as its window
`[payloadStart, payloadStart + payloadLen)`. -/
structure ParsedHeader where
  fcf : FrameControlField
  sequenceNumber : Nat
  destPanId : Nat
  destAddress : List Nat
  srcPanId : Nat
  srcAddress : List Nat
  destAddrLen : Nat
  srcAddrLen : Nat
  payloadStart : Nat
  payloadLen : Nat
  deriving Repr, DecidableEq

/-- The FCF step of `Frame::parse`: bounds check against the declared length,
then `memcpy` of two bytes.  Returns the parsed value with the new offset,
plus the list of input positions this step reads (empty when the check
fails, since the check precedes the copy). -/
def parseFcfStep (data : Nat → Nat) (frame_len offset : Nat) :
    Option (FrameControlField × Nat) × List Nat :=
  if offset + 2 > frame_len then (none, [])
  else (some (decodeFcf (byteAt data offset) (byteAt data (offset + 1)), offset + 2),
        [offset, offset + 1])

/-- The sequence-number step of `Frame::parse`. -/
def parseSeqStep (data : Nat → Nat) (frame_len : Nat) (fcf : FrameControlField)
    (offset : Nat) : Option (Nat × Nat) × List Nat :=
  if fcf.sequenceNumberSuppression = 0 then
    if offset + 1 > frame_len then (none, [])
    else (some (byteAt data offset, offset + 1), [offset])
  else (some (0, offset), [])

/-- The destination-PAN step of `Frame::parse`.  The C expression
`(data[offset + 1] << 8) | data[offset]` on two `uint8_t` values equals
`data[offset + 1] * 256 + data[offset]` (disjoint bit ranges). -/
def parseDestPanStep (data : Nat → Nat) (frame_len : Nat) (fcf : FrameControlField)
    (offset : Nat) : Option (Nat × Nat) × List Nat :=
  if fcf.destAddrMode ≠ 0 then
    if offset + 2 > frame_len then (none, [])
    else (some (byteAt data (offset + 1) * 256 + byteAt data offset, offset + 2),
          [offset, offset + 1])
  else (some (0, offset), [])

/-- An address step of `Frame::parse` (used for both destination and source).
When the mode yields length 0 the C code `memset`s the array to zero, i.e.
the meaningful address bytes are `[]`. -/
def parseAddrStep (data : Nat → Nat) (frame_len mode offset : Nat) :
    Option (List Nat × Nat) × List Nat :=
  if addrLenOf mode > 0 then
    if offset + addrLenOf mode > frame_len then (none, [])
    else (some (readSlice data offset (addrLenOf mode), offset + addrLenOf mode),
          sliceIdx offset (addrLenOf mode))
  else (some ([], offset), [])

/-- The source-PAN step of `Frame::parse`: read its own bytes, or copy the
destination PAN under compression, or 0 when no source address is present. -/
def parseSrcPanStep (data : Nat → Nat) (frame_len : Nat) (fcf : FrameControlField)
    (destPan offset : Nat) : Option (Nat × Nat) × List Nat :=
  if fcf.srcAddrMode ≠ 0 ∧ fcf.panIdCompression = 0 then
    if offset + 2 > frame_len then (none, [])
    else (some (byteAt data (offset + 1) * 256 + byteAt data offset, offset + 2),
          [offset, offset + 1])
  else if fcf.srcAddrMode ≠ 0 then (some (destPan, offset), [])
  else (some (0, offset), [])

/-- The sequential field chain of `Frame::parse`, after the declared frame
length has been computed.  The second component records every input position
the C code dereferences, in order, starting with the length byte itself. -/
def parseRawAux (data : Nat → Nat) (frame_len : Nat) : Option ParsedHeader × List Nat :=
  match parseFcfStep data frame_len 1 with
  | (none, r1) => (none, 0 :: r1)
  | (some (fcf, o1), r1) =>
    match parseSeqStep data frame_len fcf o1 with
    | (none, r2) => (none, 0 :: (r1 ++ r2))
    | (some (seq, o2), r2) =>
      match parseDestPanStep data frame_len fcf o2 with
      | (none, r3) => (none, 0 :: (r1 ++ r2 ++ r3))
      | (some (dpan, o3), r3) =>
        match parseAddrStep data frame_len fcf.destAddrMode o3 with
        | (none, r4) => (none, 0 :: (r1 ++ r2 ++ r3 ++ r4))
        | (some (daddr, o4), r4) =>
          match parseSrcPanStep data frame_len fcf dpan o4 with
          | (none, r5) => (none, 0 :: (r1 ++ r2 ++ r3 ++ r4 ++ r5))
          | (some (span, o5), r5) =>
            match parseAddrStep data frame_len fcf.srcAddrMode o5 with
            | (none, r6) => (none, 0 :: (r1 ++ r2 ++ r3 ++ r4 ++ r5 ++ r6))
            | (some (saddr, o6), r6) =>
              (some { fcf := fcf, sequenceNumber := seq, destPanId := dpan,
                      destAddress := daddr, srcPanId := span, srcAddress := saddr,
                      destAddrLen := addrLenOf fcf.destAddrMode,
                      srcAddrLen := addrLenOf fcf.srcAddrMode,
                      payloadStart := o6, payloadLen := frame_len - o6 },
               0 :: (r1 ++ r2 ++ r3 ++ r4 ++ r5 ++ r6))

/-- Model of `Frame::parse`.  `size_t frame_len = data[0] - 1` underflows to
`SIZE_MAX` when the length byte is zero (the subtraction happens in `int`
and is then converted to `size_t`). -/
def parseRaw (data : Nat → Nat) : Option ParsedHeader × List Nat :=
  parseRawAux data (if byteAt data 0 = 0 then SIZE_MAX64 else byteAt data 0 - 1)

/-- Model of `Frame::parse` at the `Frame` level: the header fields plus the payload
bytes the exposed payload window designates. -/
def parseFrame (data : Nat → Nat) : Option Frame :=
  match (parseRaw data).1 with
  | none => none
  | some h =>
    some { fcf := h.fcf, sequenceNumber := h.sequenceNumber, destPanId := h.destPanId,
           destAddress := h.destAddress, srcPanId := h.srcPanId,
           srcAddress := h.srcAddress, destAddrLen := h.destAddrLen,
           srcAddrLen := h.srcAddrLen,
           payload := readSlice data h.payloadStart h.payloadLen }

/-! ## RingBuffer (src/RingBuffer.h)

The C `count` member is an `int`, but every mutation is guarded
(`write` checks `isFull`, `read` checks `available() > 0`), so it never
leaves `[0, capacity]`; it is modelled as a `Nat`. -/

structure RingBuffer where
  buffer : List Nat
  capacity : Nat
  head : Nat
  tail : Nat
  count : Nat
  deriving Repr, DecidableEq

/-- Model of `RingBuffer::resize`: `std::vector::resize` keeps the common prefix and
zero-fills growth, then `clear()` resets the indices. -/
def RingBuffer.resize (rb : RingBuffer) (new_size : Nat) : RingBuffer where
  buffer := rb.buffer.take new_size ++ List.replicate (new_size - rb.buffer.length) 0
  capacity := new_size
  head := 0
  tail := 0
  count := 0

/-- The constructor `RingBuffer(int size)`. -/
def RingBuffer.fresh (size : Nat) : RingBuffer :=
  RingBuffer.resize { buffer := [], capacity := 0, head := 0, tail := 0, count := 0 } size

/-- Model of `RingBuffer::isFull`. -/
def RingBuffer.isFull (rb : RingBuffer) : Bool := rb.count == rb.capacity

/-- Model of `RingBuffer::isEmpty`. -/
def RingBuffer.isEmpty (rb : RingBuffer) : Bool := rb.count == 0

/-- Model of `RingBuffer::available`. -/
def RingBuffer.available (rb : RingBuffer) : Nat := rb.count

/-- Model of `RingBuffer::availableForWrite` = `capacity - count`. -/
def RingBuffer.availableForWrite (rb : RingBuffer) : Nat := rb.capacity - rb.count

/-- Model of `RingBuffer::clear`. -/
def RingBuffer.clear (rb : RingBuffer) : RingBuffer :=
  { rb with head := 0, tail := 0, count := 0 }

/-- Model of `RingBuffer::write`: fails on a full buffer, otherwise stores at the
tail and advances it modulo the capacity. -/
def RingBuffer.write (rb : RingBuffer) (b : Nat) : Bool × RingBuffer :=
  if rb.isFull then (false, rb)
  else (true, { rb with buffer := rb.buffer.set rb.tail b,
                        tail := (rb.tail + 1) % rb.capacity,
                        count := rb.count + 1 })

/-- Model of `RingBuffer::writeArray`: writes until the first failure, returning the
number of bytes written. -/
def RingBuffer.writeArray (rb : RingBuffer) : List Nat → Nat × RingBuffer
  | [] => (0, rb)
  | b :: rest =>
    match rb.write b with
    | (true, rb') =>
      let r := rb'.writeArray rest
      (r.1 + 1, r.2)
    | (false, _) => (0, rb)

/-- Model of `RingBuffer::read`: returns 0 when empty (not a negative sentinel),
otherwise consumes the head byte. -/
def RingBuffer.read (rb : RingBuffer) : Nat × RingBuffer :=
  if rb.available > 0 then
    (rb.buffer.getD rb.head 0, { rb with head := (rb.head + 1) % rb.capacity,
                                         count := rb.count - 1 })
  else (0, rb)

/-- Model of `RingBuffer::readArray`: reads up to `len` bytes while data remains. -/
def RingBuffer.readArray (rb : RingBuffer) : Nat → List Nat × RingBuffer
  | 0 => ([], rb)
  | n + 1 =>
    if rb.available > 0 then
      let r1 := rb.read
      let r2 := r1.2.readArray n
      (r1.1 :: r2.1, r2.2)
    else ([], rb)

/-- Model of `RingBuffer::peek`: the head byte without consuming it (the C out
parameter is written only on success). -/
def RingBuffer.peek (rb : RingBuffer) : Option Nat :=
  if rb.available > 0 then some (rb.buffer.getD rb.head 0) else none

/-- One buffer operation, for stating the invariant over arbitrary
operation sequences (outputs discarded, state kept). -/
inductive RBOp where
  | writeOne (b : Nat)
  | writeArr (l : List Nat)
  | readOne
  | readArr (n : Nat)
  | peekOne
  | clearAll
  deriving Repr, DecidableEq

/-- State reached after one operation. -/
def RBOp.apply (rb : RingBuffer) : RBOp → RingBuffer
  | .writeOne b => (rb.write b).2
  | .writeArr l => (rb.writeArray l).2
  | .readOne => rb.read.2
  | .readArr n => (rb.readArray n).2
  | .peekOne => rb
  | .clearAll => rb.clear

/-- State reached after a sequence of operations. -/
def runOps (rb : RingBuffer) (ops : List RBOp) : RingBuffer :=
  ops.foldl RBOp.apply rb

/-! ## Transceiver transmit path (src/ESP32TransceiverIEEE802_15_4.{h,cpp}) -/

/-- The transceiver state that the transmit path touches: the activity flag,
the member frame's `sequenceNumber` (a `uint8_t`), and the
`auto_increment_sequence_number` flag. -/
structure Transceiver where
  is_active : Bool
  sequenceNumber : Nat
  auto_increment_sequence_number : Bool
  deriving Repr, DecidableEq

/-- Model of `setAutoIncrementSequenceNumber`: stores the flag. -/
def Transceiver.setAutoIncrementSequenceNumber (t : Transceiver) (b : Bool) : Transceiver :=
  { t with auto_increment_sequence_number := b }

/-- Model of `incrementSequenceNumber(n)`: `frame.sequenceNumber += n` on a `uint8_t`
wraps at 256 (the extra `% 256` in the source is a no-op on `uint8_t`). -/
def Transceiver.incrementSequenceNumber (t : Transceiver) (n : Nat) : Transceiver :=
  { t with sequenceNumber := (t.sequenceNumber + n) % 256 }

/-- Error outcomes of `transmit_channel` (distinct `esp_err_t` values). -/
inductive EspErr where
  | ok
  | invalidState
  | invalidArg
  | setChannelErr
  | transmitErr
  deriving Repr, DecidableEq

/-- Model of `ESP32TransceiverIEEE802_15_4::transmit_channel`.  The radio calls are
modelled by the booleans `setChannelOk` / `transmitOk` (their `esp_err_t`
results).  With a live frame and buffer, `Frame::build` returns the total
length ≥ 4, so the `len == 0` bail-out is not taken.  On successful hand-off
the code executes `frame->sequenceNumber++` (a `uint8_t` increment)
unconditionally — `auto_increment_sequence_number` is never consulted. -/
def Transceiver.transmit_channel (t : Transceiver) (channel : Int)
    (change_channel setChannelOk transmitOk : Bool) : EspErr × Transceiver :=
  if !t.is_active then (.invalidState, t)
  else if change_channel && (channel < 11 || channel > 26) then (.invalidArg, t)
  else if change_channel && !setChannelOk then (.setChannelErr, t)
  else if !transmitOk then (.transmitErr, t)
  else (.ok, { t with sequenceNumber := (t.sequenceNumber + 1) % 256 })

/-- A concrete transceiver state used by witnesses. -/
def exTr : Transceiver :=
  { is_active := true, sequenceNumber := 9, auto_increment_sequence_number := true }

/-! ## Stream send path with confirmations
(src/ESP32TransceiverStreamIEEE802_15_4.h, `sendWithConfirmations`) -/

/-- Outcome of one attempt of the do/while loop in `sendWithConfirmations`:
  * `sendFail` — `p_transceiver->send` returns false (the radio refused the
    hand-off, e.g. `esp_ieee802154_transmit` returned an error); the loop
    sets `CONFIRMATION_ERROR` itself and the frame sequence number is not
    advanced;
  * `txDone` / `txFail` — the hand-off succeeded (so `transmit_channel`
    already incremented the frame sequence number) and the radio later
    invoked the done / failed callback before the ack-wait deadline;
  * `timeout` — the hand-off succeeded but no callback arrived before the
    deadline: the state is still `WAITING_FOR_CONFIRMATION`. -/
inductive TxOutcome where
  | sendFail
  | txDone
  | txFail
  | timeout
  deriving Repr, DecidableEq

/-- Observable result of `sendWithConfirmations`: how many loop iterations
(= `send` calls) ran, the frame sequence number each attempt was built with,
the final frame sequence number, and the remaining retry budget. -/
structure SendResult where
  attempts : Nat
  seqsUsed : List Nat
  seq : Nat
  retryLeft : Int
  deriving Repr, DecidableEq

/-- The do/while loop of `sendWithConfirmations`, fuel-indexed so that the
definition is structural.  `retry` is the C `int retry`; `seq` is the
transceiver frame's `sequenceNumber` at loop entry; `outcomes i` is what
happens on attempt `i`.  One iteration: reset the state, call `send`
(successful hand-off increments the frame sequence number), wait; then
  * `CONFIRMATION_ERROR` (`sendFail`/`txFail`): `retry--`; if `retry <= 0`
    advance the sequence number once more and return, else loop again;
  * `CONFIRMATION_RECEIVED` (`txDone`): advance the sequence number and
    leave the loop;
  * still `WAITING_FOR_CONFIRMATION` (`timeout`): `retry--` and leave the
    loop, because the `while` condition only continues on
    `CONFIRMATION_ERROR`.
The fuel-0 branch is unreachable from `sendWithConfirmations` below, whose
fuel bounds the possible iteration count. -/
def sendWCLoop (outcomes : Nat → TxOutcome) :
    Nat → Int → Nat → Nat → List Nat → SendResult
  | 0, retry, seq, attempt, used =>
    { attempts := attempt, seqsUsed := used, seq := seq, retryLeft := retry }
  | fuel + 1, retry, seq, attempt, used =>
    let o := outcomes attempt
    let seq1 := if o = .sendFail then seq else (seq + 1) % 256
    let used1 := used ++ [seq]
    if o = .sendFail ∨ o = .txFail then
      if retry - 1 ≤ 0 then
        { attempts := attempt + 1, seqsUsed := used1,
          seq := (seq1 + 1) % 256, retryLeft := retry - 1 }
      else sendWCLoop outcomes fuel (retry - 1) seq1 (attempt + 1) used1
    else if o = .txDone then
      { attempts := attempt + 1, seqsUsed := used1,
        seq := (seq1 + 1) % 256, retryLeft := retry }
    else
      { attempts := attempt + 1, seqsUsed := used1,
        seq := seq1, retryLeft := retry - 1 }

/-- Model of `sendWithConfirmations` for one flushed frame: run the loop with the
configured retry budget (`send_retry_count`).  Every continuing iteration
strictly decreases the positive retry counter, so `budget.toNat + 1` fuel is
never exhausted. -/
def sendWithConfirmations (outcomes : Nat → TxOutcome) (budget : Int) (seq : Nat) :
    SendResult :=
  sendWCLoop outcomes (budget.toNat + 1) budget seq 0 []

/-! ## Stream receive path (src/ESP32TransceiverStreamIEEE802_15_4.h) -/

/-- The stream-adapter state that `receive()` and `read()` touch: the
outbound FCF template (consulted by `isSequenceNumbers`), the last accepted
inbound sequence number (`int last_seq`, -1 = none yet), the pending-frame
flag, the member `Frame` used for parsing, and the RX ring buffer.

The `frame` member's scalar fields and `payloadLen` are stored by value and
survive across calls, but its C `payload` field is only a pointer into the
stack-local `frame_data_t packet` of the `receive()` invocation that parsed
it; the `payload` list here records the bytes that pointer designated *at
parse time*.  Once that invocation returns, the pointer dangles, so a later
call must not treat the list as the bytes the pointer still reads — see
the `stale` parameter of `StreamState.receive`. -/
structure StreamState where
  fcf : FrameControlField
  last_seq : Int
  is_open_frame : Bool
  frame : Frame
  rx_buffer : RingBuffer
  deriving Repr, DecidableEq

/-- Model of `isSequenceNumbers()`: sequence handling is on when the outbound FCF
template does not suppress sequence numbers. -/
def StreamState.isSequenceNumbers (s : StreamState) : Bool :=
  s.fcf.sequenceNumberSuppression == 0

/-- The tail of `receive()` after sequence validation: if the payload does
not fit the RX buffer's free space, remember the frame as pending and report
no progress; otherwise append the payload to the RX buffer. -/
def StreamState.storePayload (s : StreamState) : Bool × StreamState :=
  if s.frame.payload.length > s.rx_buffer.availableForWrite then
    (false, { s with is_open_frame := true })
  else
    (true, { s with rx_buffer := (s.rx_buffer.writeArray s.frame.payload).2 })

/-- Model of `ESP32TransceiverStreamIEEE802_15_4::receive`.  `incoming` models the
message-buffer pull: `none` when no (complete) packet arrives within the
timeout, `some bytes` for a received packet's frame bytes.  A pending frame
is drained before any new packet is pulled; a newly parsed frame is dropped
when its sequence number repeats the last accepted one.

In the pending branch the C code runs
`rx_buffer.writeArray(frame.payload, frame.payloadLen)`, but `frame.payload`
points into the stack-local `frame_data_t packet` of the earlier `receive()`
invocation that parsed the frame, and that object is dead by now; only
`frame.payloadLen` (stored by value) is reliable.  The parameter `stale`
supplies the bytes currently occupying the dead region the dangling pointer
designates — the program gives no guarantee about them — and the pending
delivery writes `payloadLen` bytes read through it, not the parse-time
payload.  Within a single call (the `storePayload` path) the packet is
still live, so there the parse-time bytes are the ones written. -/
def StreamState.receive (s : StreamState) (incoming : Option (List Nat))
    (stale : Nat → Nat) : Bool × StreamState :=
  if s.is_open_frame then
    if s.frame.payload.length > s.rx_buffer.availableForWrite then (false, s)
    else
      (true, { s with
               rx_buffer :=
                 (s.rx_buffer.writeArray
                   (readSlice stale 0 s.frame.payload.length)).2
               is_open_frame := false })
  else
    match incoming with
    | none => (false, s)
    | some bytes =>
      match parseFrame (dataOf bytes) with
      | none => (false, s)
      | some f =>
        let s1 := { s with frame := f }
        if s1.isSequenceNumbers then
          if s1.last_seq ≠ -1 ∧ (f.sequenceNumber : Int) = s1.last_seq then (false, s1)
          else StreamState.storePayload { s1 with last_seq := (f.sequenceNumber : Int) }
        else StreamState.storePayload s1

/-- Model of `ESP32TransceiverStreamIEEE802_15_4::read`: drive `receive()` once, then
return `rx_buffer.read()` — which yields 0 when the buffer is empty. -/
def StreamState.streamRead (s : StreamState) (incoming : Option (List Nat))
    (stale : Nat → Nat) : Nat × StreamState :=
  let s1 := (s.receive incoming stale).2
  let r := s1.rx_buffer.read
  (r.1, { s1 with rx_buffer := r.2 })

/-! ## Concrete sample values used by witnesses and counterexamples -/

/-- A representative FCF: data frame, ack requested, sequence numbers on, no
PAN compression, short destination, extended source. -/
def exFcf : FrameControlField :=
  { frameType := 1, ackRequest := 1, sequenceNumberSuppression := 0,
    destAddrMode := 2, frameVersion := 1, srcAddrMode := 3 }

/-- A representative consistent frame using `exFcf`. -/
def exFrame : Frame :=
  { fcf := exFcf, sequenceNumber := 42, destPanId := 4660,
    destAddress := [205, 171], srcPanId := 22136,
    srcAddress := [1, 2, 3, 4, 5, 6, 7, 8], destAddrLen := 2, srcAddrLen := 8,
    payload := [72, 73, 74] }

/-- A frame with no destination address but a nonzero destination PAN id:
`build` emits no PAN bytes for it, and `parse` reconstructs the PAN as 0. -/
def cexPanFrame : Frame :=
  { fcf := { frameType := 1, sequenceNumberSuppression := 1, frameVersion := 1 },
    destPanId := 1 }

/-- A frame whose total built size is 256: the length byte wraps to 0 and the
parse of the built bytes mis-reads the frame. -/
def cexBigFrame : Frame :=
  { fcf := { frameType := 1, sequenceNumberSuppression := 1, frameVersion := 1 },
    payload := List.replicate 252 7 }

/-- A stream state with sequence handling on, nothing accepted yet, and a
small empty RX buffer. -/
def exStream : StreamState :=
  { fcf := exFcf, last_seq := -1, is_open_frame := false, frame := {},
    rx_buffer := RingBuffer.fresh 16 }

/-- A fresh stream state whose RX buffer (capacity 2) is smaller than
`exFrame`'s 3-byte payload. -/
def exStreamTiny : StreamState :=
  { fcf := exFcf, last_seq := -1, is_open_frame := false, frame := {},
    rx_buffer := RingBuffer.fresh 2 }

/-- A stream state holding `exFrame` as a pending (backpressured) frame in
front of a too-small RX buffer. -/
def exStreamPend : StreamState :=
  { fcf := exFcf, last_seq := 3, is_open_frame := true, frame := exFrame,
    rx_buffer := RingBuffer.fresh 2 }

/-- Like `exStreamPend` but with enough RX space for the pending payload. -/
def exStreamPendFit : StreamState :=
  { fcf := exFcf, last_seq := 3, is_open_frame := true, frame := exFrame,
    rx_buffer := RingBuffer.fresh 8 }

/-- A stream state whose RX buffer holds a single genuine `0x00` byte. -/
def exStreamZero : StreamState :=
  { fcf := exFcf, last_seq := -1, is_open_frame := false, frame := {},
    rx_buffer := ((RingBuffer.fresh 4).write 0).2 }

/-! ## Helper lemmas: FCF serialization and raw-memory reads -/

theorem byte0_lt (fcf : FrameControlField) (h : fcf.wf) : fcf.byte0 < 256 := by
  obtain ⟨h1, h2, h3, h4, h5, h6, -⟩ := h
  unfold FrameControlField.byte0
  omega

theorem byte1_lt (fcf : FrameControlField) (h : fcf.wf) : fcf.byte1 < 256 := by
  obtain ⟨-, -, -, -, -, -, h7, h8, h9, h10, h11⟩ := h
  unfold FrameControlField.byte1
  omega

theorem decode_encode_fcf (fcf : FrameControlField) (h : fcf.wf) :
    decodeFcf fcf.byte0 fcf.byte1 = fcf := by
  obtain ⟨h1, h2, h3, h4, h5, h6, h7, h8, h9, h10, h11⟩ := h
  unfold decodeFcf FrameControlField.byte0 FrameControlField.byte1
  cases fcf
  simp only [FrameControlField.mk.injEq]
  refine ⟨?_, ?_, ?_, ?_, ?_, ?_, ?_, ?_, ?_, ?_, ?_⟩ <;> simp_all <;> omega

theorem byteAt_dataOf (l : List Nat) (i : Nat) : byteAt (dataOf l) i = l.getD i 0 % 256 :=
  rfl

theorem byteAt_concat (pre post : List Nat) (b i : Nat) (hi : i = pre.length) :
    byteAt (dataOf (pre ++ b :: post)) i = b % 256 := by
  subst hi
  rw [byteAt_dataOf, List.getD_append_right pre (b :: post) 0 pre.length le_rfl]
  simp

theorem readSlice_length (data : Nat → Nat) (off n : Nat) :
    (readSlice data off n).length = n := by
  simp [readSlice]

theorem readSlice_concat (pre seg post : List Nat) (off n : Nat)
    (hoff : off = pre.length) (hn : n = seg.length) (hb : ∀ b ∈ seg, b < 256) :
    readSlice (dataOf (pre ++ (seg ++ post))) off n = seg := by
  subst hoff hn
  apply List.ext_getElem (by simp [readSlice])
  intro i h1 h2
  have hi : i < seg.length := by simpa [readSlice] using h1
  simp only [readSlice, List.getElem_map, List.getElem_range]
  rw [byteAt_dataOf,
      List.getD_append_right pre (seg ++ post) 0 (pre.length + i) (by omega)]
  have : pre.length + i - pre.length = i := by omega
  rw [this, List.getD_append seg post 0 i hi, List.getD_eq_getElem seg 0 hi,
      Nat.mod_eq_of_lt (hb _ (seg.getElem_mem hi))]

/-! ## Parse steps on built data -/

theorem parseFcfStep_built (L pre post : List Nat) (fcf : FrameControlField)
    (frame_len o : Nat) (hL : L = pre ++ (encodeFcf fcf ++ post)) (ho : o = pre.length)
    (hbound : o + 2 ≤ frame_len) (hwf : fcf.wf) :
    parseFcfStep (dataOf L) frame_len o = (some (fcf, o + 2), [o, o + 1]) := by
  have hL' : L = pre ++ fcf.byte0 :: fcf.byte1 :: post := by simpa [encodeFcf] using hL
  have hL'' : L = (pre ++ [fcf.byte0]) ++ fcf.byte1 :: post := by simp [hL']
  have h0 : byteAt (dataOf L) o = fcf.byte0 := by
    rw [hL', byteAt_concat pre _ _ o ho, Nat.mod_eq_of_lt (byte0_lt fcf hwf)]
  have h1 : byteAt (dataOf L) (o + 1) = fcf.byte1 := by
    rw [hL'', byteAt_concat (pre ++ [fcf.byte0]) _ _ (o + 1) (by simp [ho]),
        Nat.mod_eq_of_lt (byte1_lt fcf hwf)]
  unfold parseFcfStep
  rw [if_neg (by omega), h0, h1, decode_encode_fcf fcf hwf]

theorem parseSeqStep_built (L pre post : List Nat) (f : Frame) (frame_len o : Nat)
    (hL : L = pre ++ (f.seqBytes ++ post)) (ho : o = pre.length)
    (hbound : o + f.seqBytes.length ≤ frame_len) (hseq : f.sequenceNumber < 256) :
    parseSeqStep (dataOf L) frame_len f.fcf o =
      (some ((if f.fcf.sequenceNumberSuppression = 0 then f.sequenceNumber else 0),
             o + f.seqBytes.length),
       if f.fcf.sequenceNumberSuppression = 0 then [o] else []) := by
  by_cases hs : f.fcf.sequenceNumberSuppression = 0
  · have hseg : f.seqBytes = [f.sequenceNumber] := by simp [Frame.seqBytes, hs]
    rw [hseg] at hL hbound
    have hA : L = pre ++ f.sequenceNumber :: post := by simpa using hL
    have hb : byteAt (dataOf L) o = f.sequenceNumber := by
      rw [hA, byteAt_concat pre _ _ o ho, Nat.mod_eq_of_lt hseq]
    unfold parseSeqStep
    rw [if_pos hs, if_neg (by simp at hbound; omega), hb]
    simp [hs, hseg]
  · have hseg : f.seqBytes = [] := by simp [Frame.seqBytes, hs]
    unfold parseSeqStep
    rw [if_neg hs]
    simp [hs, hseg]

theorem parseDestPanStep_built (L pre post : List Nat) (f : Frame) (frame_len o : Nat)
    (hL : L = pre ++ (f.destPanBytes ++ post)) (ho : o = pre.length)
    (hbound : o + f.destPanBytes.length ≤ frame_len) (hpan : f.destPanId < 65536)
    (hz : f.fcf.destAddrMode = 0 → f.destPanId = 0) :
    parseDestPanStep (dataOf L) frame_len f.fcf o =
      (some (f.destPanId, o + f.destPanBytes.length),
       if f.fcf.destAddrMode ≠ 0 then [o, o + 1] else []) := by
  by_cases hd : f.fcf.destAddrMode ≠ 0
  · have hseg : f.destPanBytes = [f.destPanId % 256, f.destPanId / 256 % 256] := by
      simp [Frame.destPanBytes, hd, panBytes]
    rw [hseg] at hL hbound
    have hA : L = pre ++ f.destPanId % 256 :: (f.destPanId / 256 % 256 :: post) := by
      simpa using hL
    have hB : L = (pre ++ [f.destPanId % 256]) ++ f.destPanId / 256 % 256 :: post := by
      simpa using hL
    have h0 : byteAt (dataOf L) o = f.destPanId % 256 := by
      rw [hA, byteAt_concat pre _ _ o ho]
      omega
    have h1 : byteAt (dataOf L) (o + 1) = f.destPanId / 256 := by
      rw [hB, byteAt_concat (pre ++ [f.destPanId % 256]) _ _ (o + 1) (by simp [ho])]
      omega
    unfold parseDestPanStep
    rw [if_pos hd, if_neg (by simp at hbound; omega), h0, h1]
    simp only [hseg, List.length_cons, List.length_nil, if_pos hd]
    have : f.destPanId / 256 * 256 + f.destPanId % 256 = f.destPanId := by omega
    rw [this]
  · have hseg : f.destPanBytes = [] := by simp [Frame.destPanBytes, hd]
    unfold parseDestPanStep
    rw [if_neg hd]
    simp [hseg, hz (by omega), hd]

theorem parseAddrStep_built (L pre post addr : List Nat) (mode frame_len o : Nat)
    (hL : L = pre ++ (addr.take (addrLenOf mode) ++ post)) (ho : o = pre.length)
    (hlen : addr.length = addrLenOf mode) (hbound : o + addrLenOf mode ≤ frame_len)
    (hb : ∀ b ∈ addr, b < 256) :
    parseAddrStep (dataOf L) frame_len mode o =
      (some (addr, o + addrLenOf mode),
       if 0 < addrLenOf mode then sliceIdx o (addrLenOf mode) else []) := by
  have htake : addr.take (addrLenOf mode) = addr := by
    rw [← hlen, List.take_length]
  rw [htake] at hL
  by_cases hp : 0 < addrLenOf mode
  · unfold parseAddrStep
    rw [if_pos hp, if_neg (by omega), hL,
        readSlice_concat pre addr post o (addrLenOf mode) ho hlen.symm hb]
    simp [hp]
  · have haddr : addr = [] := by
      have : addr.length = 0 := by omega
      exact List.length_eq_zero.mp this
    unfold parseAddrStep
    rw [if_neg hp]
    simp [haddr, hp]
    omega

theorem parseSrcPanStep_built (L pre post : List Nat) (f : Frame) (frame_len o : Nat)
    (hL : L = pre ++ (f.srcPanBytes ++ post)) (ho : o = pre.length)
    (hbound : o + f.srcPanBytes.length ≤ frame_len) (hpan : f.srcPanId < 65536)
    (hz : f.fcf.srcAddrMode = 0 → f.srcPanId = 0)
    (hc : f.fcf.srcAddrMode ≠ 0 → f.fcf.panIdCompression ≠ 0 → f.srcPanId = f.destPanId) :
    parseSrcPanStep (dataOf L) frame_len f.fcf f.destPanId o =
      (some (f.srcPanId, o + f.srcPanBytes.length),
       if f.fcf.srcAddrMode ≠ 0 ∧ f.fcf.panIdCompression = 0 then [o, o + 1] else []) := by
  by_cases hown : f.fcf.srcAddrMode ≠ 0 ∧ f.fcf.panIdCompression = 0
  · have hseg : f.srcPanBytes = [f.srcPanId % 256, f.srcPanId / 256 % 256] := by
      simp [Frame.srcPanBytes, hown.1, hown.2, panBytes]
    rw [hseg] at hL hbound
    have hA : L = pre ++ f.srcPanId % 256 :: (f.srcPanId / 256 % 256 :: post) := by
      simpa using hL
    have hB : L = (pre ++ [f.srcPanId % 256]) ++ f.srcPanId / 256 % 256 :: post := by
      simpa using hL
    have h0 : byteAt (dataOf L) o = f.srcPanId % 256 := by
      rw [hA, byteAt_concat pre _ _ o ho]
      omega
    have h1 : byteAt (dataOf L) (o + 1) = f.srcPanId / 256 := by
      rw [hB, byteAt_concat (pre ++ [f.srcPanId % 256]) _ _ (o + 1) (by simp [ho])]
      omega
    unfold parseSrcPanStep
    rw [if_pos hown, if_neg (by simp at hbound; omega), h0, h1]
    simp only [hseg, List.length_cons, List.length_nil, if_pos hown]
    have : f.srcPanId / 256 * 256 + f.srcPanId % 256 = f.srcPanId := by omega
    rw [this]
  · have hseg : f.srcPanBytes = [] := by
      unfold Frame.srcPanBytes
      rw [if_neg hown]
    unfold parseSrcPanStep
    rw [if_neg hown]
    by_cases hsm : f.fcf.srcAddrMode ≠ 0
    · have hcomp : f.fcf.panIdCompression ≠ 0 := by
        by_contra hcz
        exact hown ⟨hsm, by omega⟩
      rw [if_pos hsm]
      simp [hseg, hc hsm hcomp, hown]
    · rw [if_neg hsm]
      simp [hseg, hz (by omega), hown]

/-! ## Build/parse round trip -/

/-- C1 (amended): for every consistent frame — address data and stored
lengths matching the FCF modes per None→0/Short→2/Extended→8, sequence
number zero when suppressed, PAN ids zero when the corresponding address is
absent, source PAN equal to the destination PAN under compression with a
source address present — whose total built size fits the one-byte length
prefix, `Frame::parse` applied to the bytes produced by `Frame::build`
succeeds and returns the same frame in every semantic field (FCF, sequence
number, PAN ids, addresses, payload). -/
theorem c1_build_parse_roundtrip (f : Frame) (hwf : f.wf) (hlen : f.buildLen ≤ 255) :
    parseFrame (dataOf f.buildBytes) = some f := by
  obtain ⟨hfcf, hdm, hsm, hdl, hsl, hdL, hsL, hseq, hseqz, hdp, hsp, hdpz, hspz,
          hcomp, hdb, hsb, hplb⟩ := hwf
  have htlD : (f.destAddress.take (addrLenOf f.fcf.destAddrMode)).length =
      addrLenOf f.fcf.destAddrMode := by
    simp [List.length_take, hdl]
  have htlS : (f.srcAddress.take (addrLenOf f.fcf.srcAddrMode)).length =
      addrLenOf f.fcf.srcAddrMode := by
    simp [List.length_take, hsl]
  have hlenBody : f.bodyBytes.length =
      2 + f.seqBytes.length + f.destPanBytes.length + addrLenOf f.fcf.destAddrMode +
        f.srcPanBytes.length + addrLenOf f.fcf.srcAddrMode + f.payload.length + 1 := by
    simp only [Frame.bodyBytes, Frame.destAddrBytes, Frame.srcAddrBytes, encodeFcf,
               List.length_append, List.length_cons, List.length_nil, htlD, htlS]
    try omega
  have ht : byteAt (dataOf f.buildBytes) 0 = f.buildLen := by
    have h0 : byteAt (dataOf f.buildBytes) 0 = f.buildLen % 256 % 256 := rfl
    rw [h0]
    omega
  have hfl : (if byteAt (dataOf f.buildBytes) 0 = 0 then SIZE_MAX64
              else byteAt (dataOf f.buildBytes) 0 - 1) = f.bodyBytes.length := by
    have hb : f.buildLen = 1 + f.bodyBytes.length := rfl
    rw [ht, if_neg (by omega)]
    omega
  -- the cumulative prefixes of the built byte list, one per parse step
  have hL1 : f.buildBytes = [f.buildLen % 256] ++ (encodeFcf f.fcf ++
      (f.seqBytes ++ (f.destPanBytes ++ (f.destAddress.take (addrLenOf f.fcf.destAddrMode) ++
       (f.srcPanBytes ++ (f.srcAddress.take (addrLenOf f.fcf.srcAddrMode) ++
        (f.payload ++ [0]))))))) := by
    simp [Frame.buildBytes, Frame.bodyBytes, Frame.destAddrBytes, Frame.srcAddrBytes]
  have hL2 : f.buildBytes = ([f.buildLen % 256] ++ encodeFcf f.fcf) ++
      (f.seqBytes ++ (f.destPanBytes ++ (f.destAddress.take (addrLenOf f.fcf.destAddrMode) ++
       (f.srcPanBytes ++ (f.srcAddress.take (addrLenOf f.fcf.srcAddrMode) ++
        (f.payload ++ [0])))))) := by
    simp [Frame.buildBytes, Frame.bodyBytes, Frame.destAddrBytes, Frame.srcAddrBytes]
  have hL3 : f.buildBytes = ([f.buildLen % 256] ++ encodeFcf f.fcf ++ f.seqBytes) ++
      (f.destPanBytes ++ (f.destAddress.take (addrLenOf f.fcf.destAddrMode) ++
       (f.srcPanBytes ++ (f.srcAddress.take (addrLenOf f.fcf.srcAddrMode) ++
        (f.payload ++ [0]))))) := by
    simp [Frame.buildBytes, Frame.bodyBytes, Frame.destAddrBytes, Frame.srcAddrBytes]
  have hL4 : f.buildBytes = ([f.buildLen % 256] ++ encodeFcf f.fcf ++ f.seqBytes ++
      f.destPanBytes) ++
      (f.destAddress.take (addrLenOf f.fcf.destAddrMode) ++
       (f.srcPanBytes ++ (f.srcAddress.take (addrLenOf f.fcf.srcAddrMode) ++
        (f.payload ++ [0])))) := by
    simp [Frame.buildBytes, Frame.bodyBytes, Frame.destAddrBytes, Frame.srcAddrBytes]
  have hL5 : f.buildBytes = ([f.buildLen % 256] ++ encodeFcf f.fcf ++ f.seqBytes ++
      f.destPanBytes ++ f.destAddress.take (addrLenOf f.fcf.destAddrMode)) ++
      (f.srcPanBytes ++ (f.srcAddress.take (addrLenOf f.fcf.srcAddrMode) ++
       (f.payload ++ [0]))) := by
    simp [Frame.buildBytes, Frame.bodyBytes, Frame.destAddrBytes, Frame.srcAddrBytes]
  have hL6 : f.buildBytes = ([f.buildLen % 256] ++ encodeFcf f.fcf ++ f.seqBytes ++
      f.destPanBytes ++ f.destAddress.take (addrLenOf f.fcf.destAddrMode) ++
      f.srcPanBytes) ++
      (f.srcAddress.take (addrLenOf f.fcf.srcAddrMode) ++ (f.payload ++ [0])) := by
    simp [Frame.buildBytes, Frame.bodyBytes, Frame.destAddrBytes, Frame.srcAddrBytes]
  have hL7 : f.buildBytes = ([f.buildLen % 256] ++ encodeFcf f.fcf ++ f.seqBytes ++
      f.destPanBytes ++ f.destAddress.take (addrLenOf f.fcf.destAddrMode) ++
      f.srcPanBytes ++ f.srcAddress.take (addrLenOf f.fcf.srcAddrMode)) ++
      (f.payload ++ [0]) := by
    simp [Frame.buildBytes, Frame.bodyBytes, Frame.destAddrBytes, Frame.srcAddrBytes]
  have h1 : parseFcfStep (dataOf f.buildBytes) f.bodyBytes.length 1 =
      (some (f.fcf, 1 + 2), [1, 1 + 1]) :=
    parseFcfStep_built _ _ _ _ _ _ hL1 (by simp) (by omega) hfcf
  have h2 : parseSeqStep (dataOf f.buildBytes) f.bodyBytes.length f.fcf (1 + 2) =
      (some ((if f.fcf.sequenceNumberSuppression = 0 then f.sequenceNumber else 0),
             1 + 2 + f.seqBytes.length),
       if f.fcf.sequenceNumberSuppression = 0 then [1 + 2] else []) :=
    parseSeqStep_built _ _ _ f _ _ hL2 (by simp [encodeFcf])
      (by omega) hseq
  have h3 : parseDestPanStep (dataOf f.buildBytes) f.bodyBytes.length f.fcf
      (1 + 2 + f.seqBytes.length) =
      (some (f.destPanId, 1 + 2 + f.seqBytes.length + f.destPanBytes.length),
       if f.fcf.destAddrMode ≠ 0 then
         [1 + 2 + f.seqBytes.length, 1 + 2 + f.seqBytes.length + 1] else []) :=
    parseDestPanStep_built _ _ _ f _ _ hL3
      (by simp only [List.length_append, List.length_cons, List.length_nil, encodeFcf]; try omega)
      (by omega) hdp hdpz
  have h4 : parseAddrStep (dataOf f.buildBytes) f.bodyBytes.length f.fcf.destAddrMode
      (1 + 2 + f.seqBytes.length + f.destPanBytes.length) =
      (some (f.destAddress,
             1 + 2 + f.seqBytes.length + f.destPanBytes.length +
               addrLenOf f.fcf.destAddrMode),
       if 0 < addrLenOf f.fcf.destAddrMode then
         sliceIdx (1 + 2 + f.seqBytes.length + f.destPanBytes.length)
           (addrLenOf f.fcf.destAddrMode) else []) :=
    parseAddrStep_built _ _ _ _ _ _ _ hL4
      (by simp only [List.length_append, List.length_cons, List.length_nil, encodeFcf]; try omega)
      hdl (by omega) hdb
  have h5 : parseSrcPanStep (dataOf f.buildBytes) f.bodyBytes.length f.fcf f.destPanId
      (1 + 2 + f.seqBytes.length + f.destPanBytes.length + addrLenOf f.fcf.destAddrMode) =
      (some (f.srcPanId,
             1 + 2 + f.seqBytes.length + f.destPanBytes.length +
               addrLenOf f.fcf.destAddrMode + f.srcPanBytes.length),
       if f.fcf.srcAddrMode ≠ 0 ∧ f.fcf.panIdCompression = 0 then
         [1 + 2 + f.seqBytes.length + f.destPanBytes.length + addrLenOf f.fcf.destAddrMode,
          1 + 2 + f.seqBytes.length + f.destPanBytes.length +
            addrLenOf f.fcf.destAddrMode + 1] else []) :=
    parseSrcPanStep_built _ _ _ f _ _ hL5
      (by simp only [List.length_append, List.length_cons, List.length_nil, encodeFcf, htlD]
          try omega)
      (by omega) hsp hspz hcomp
  have h6 : parseAddrStep (dataOf f.buildBytes) f.bodyBytes.length f.fcf.srcAddrMode
      (1 + 2 + f.seqBytes.length + f.destPanBytes.length + addrLenOf f.fcf.destAddrMode +
        f.srcPanBytes.length) =
      (some (f.srcAddress,
             1 + 2 + f.seqBytes.length + f.destPanBytes.length +
               addrLenOf f.fcf.destAddrMode + f.srcPanBytes.length +
               addrLenOf f.fcf.srcAddrMode),
       if 0 < addrLenOf f.fcf.srcAddrMode then
         sliceIdx (1 + 2 + f.seqBytes.length + f.destPanBytes.length +
           addrLenOf f.fcf.destAddrMode + f.srcPanBytes.length)
           (addrLenOf f.fcf.srcAddrMode) else []) :=
    parseAddrStep_built _ _ _ _ _ _ _ hL6
      (by simp only [List.length_append, List.length_cons, List.length_nil, encodeFcf, htlD]
          try omega)
      hsl (by omega) hsb
  have hseqv : (if f.fcf.sequenceNumberSuppression = 0 then f.sequenceNumber else 0) =
      f.sequenceNumber := by
    by_cases h : f.fcf.sequenceNumberSuppression = 0
    · simp [h]
    · simp [h, hseqz h]
  have hplLen : f.bodyBytes.length -
      (1 + 2 + f.seqBytes.length + f.destPanBytes.length + addrLenOf f.fcf.destAddrMode +
        f.srcPanBytes.length + addrLenOf f.fcf.srcAddrMode) = f.payload.length := by
    omega
  have hpay : readSlice (dataOf f.buildBytes)
      (1 + 2 + f.seqBytes.length + f.destPanBytes.length + addrLenOf f.fcf.destAddrMode +
        f.srcPanBytes.length + addrLenOf f.fcf.srcAddrMode)
      (f.bodyBytes.length -
        (1 + 2 + f.seqBytes.length + f.destPanBytes.length + addrLenOf f.fcf.destAddrMode +
          f.srcPanBytes.length + addrLenOf f.fcf.srcAddrMode)) = f.payload := by
    rw [hplLen, hL7]
    exact readSlice_concat _ _ _ _ _
      (by simp only [List.length_append, List.length_cons, List.length_nil, encodeFcf,
                     htlD, htlS]
          try omega)
      rfl hplb
  simp only [parseFrame, parseRaw, hfl, parseRawAux, h1, h2, h3, h4, h5, h6]
  rw [hseqv, hpay, ← hdL, ← hsL]

/-- Witness for C1: the hypotheses are satisfiable and the round trip holds
on a concrete frame exercising a short destination address, an extended
source address, uncompressed PAN ids and a nonempty payload. -/
theorem c1_build_parse_roundtrip_witness :
    exFrame.wf ∧ exFrame.buildLen ≤ 255 ∧
      parseFrame (dataOf exFrame.buildBytes) = some exFrame :=
  ⟨by decide, by decide, c1_build_parse_roundtrip exFrame (by decide) (by decide)⟩

set_option maxRecDepth 10000 in
/-- Counterexample for C1 as stated: `cexPanFrame` meets every consistency
condition listed in the claim (address lengths match the FCF modes, the
compressed-PAN condition is vacuous, the sequence number is suppressed), yet
build-then-parse changes its destination PAN id from 1 to 0, because `build`
emits no destination PAN bytes when the destination address mode is None
while `parse` reconstructs the PAN as 0.  Moreover for `cexBigFrame`, whose
fields are also consistent, the total build size 256 wraps the length byte
to 0 and `parse` mis-reads the payload length entirely. -/
theorem c1_counterexample :
    (cexPanFrame.destAddress.length = addrLenOf cexPanFrame.fcf.destAddrMode ∧
     cexPanFrame.srcAddress.length = addrLenOf cexPanFrame.fcf.srcAddrMode ∧
     cexPanFrame.destAddrLen = addrLenOf cexPanFrame.fcf.destAddrMode ∧
     cexPanFrame.srcAddrLen = addrLenOf cexPanFrame.fcf.srcAddrMode ∧
     cexPanFrame.sequenceNumber = 0 ∧
     (cexPanFrame.fcf.srcAddrMode ≠ 0 → cexPanFrame.fcf.panIdCompression ≠ 0 →
        cexPanFrame.srcPanId = cexPanFrame.destPanId)) ∧
    (parseFrame (dataOf cexPanFrame.buildBytes)).map Frame.destPanId = some 0 ∧
    cexPanFrame.destPanId = 1 ∧
    (parseRaw (dataOf cexBigFrame.buildBytes)).1.map ParsedHeader.payloadLen =
      some (SIZE_MAX64 - 3) ∧
    cexBigFrame.payload.length = 252 := by
  decide

/-! ## Declared length accounting of `Frame::build` -/

/-- C8: for every frame whose stored addresses match the FCF address modes
(covering all nine destination-by-source mode combinations, with sequence
suppression and PAN compression on or off) and whose total size fits the
length byte, the length byte written by `Frame::build` equals the emitted
header bytes plus the payload length plus 2 (length byte and trailing
terminator), and `build`'s return value equals that declared length. -/
theorem c8_declared_length (f : Frame)
    (hdl : f.destAddress.length = addrLenOf f.fcf.destAddrMode)
    (hsl : f.srcAddress.length = addrLenOf f.fcf.srcAddrMode)
    (hlen : f.buildLen ≤ 255) :
    f.buildBytes.headD 0 = f.fcf.headerLen + f.payload.length + 2 ∧
    f.buildLen = f.fcf.headerLen + f.payload.length + 2 := by
  have hS : f.seqBytes.length = if f.fcf.sequenceNumberSuppression = 0 then 1 else 0 := by
    unfold Frame.seqBytes; split_ifs <;> rfl
  have hP : f.destPanBytes.length = if f.fcf.destAddrMode ≠ 0 then 2 else 0 := by
    unfold Frame.destPanBytes; split_ifs <;> rfl
  have hQ : f.srcPanBytes.length =
      if f.fcf.srcAddrMode ≠ 0 ∧ f.fcf.panIdCompression = 0 then 2 else 0 := by
    unfold Frame.srcPanBytes; split_ifs <;> rfl
  have htlD : (f.destAddrBytes).length = addrLenOf f.fcf.destAddrMode := by
    simp [Frame.destAddrBytes, List.length_take, hdl]
  have htlS : (f.srcAddrBytes).length = addrLenOf f.fcf.srcAddrMode := by
    simp [Frame.srcAddrBytes, List.length_take, hsl]
  have hbuild : f.buildLen = f.fcf.headerLen + f.payload.length + 2 := by
    unfold Frame.buildLen Frame.bodyBytes FrameControlField.headerLen
    simp only [List.length_append, List.length_cons, List.length_nil, encodeFcf, hS, hP,
               hQ, htlD, htlS]
    omega
  have hhead : f.buildBytes.headD 0 = f.buildLen := by
    have h0 : f.buildBytes.headD 0 = f.buildLen % 256 := rfl
    rw [h0]
    omega
  exact ⟨by rw [hhead, hbuild], hbuild⟩

/-- Witness for C8 at a concrete frame: `exFrame` has header length 17,
payload length 3 and declared length 22. -/
theorem c8_declared_length_witness :
    exFrame.destAddress.length = addrLenOf exFrame.fcf.destAddrMode ∧
    exFrame.srcAddress.length = addrLenOf exFrame.fcf.srcAddrMode ∧
    exFrame.buildLen ≤ 255 ∧
    exFrame.buildBytes.headD 0 = exFrame.fcf.headerLen + exFrame.payload.length + 2 ∧
    exFrame.buildLen = exFrame.fcf.headerLen + exFrame.payload.length + 2 :=
  ⟨by decide, by decide, by decide,
   (c8_declared_length exFrame (by decide) (by decide) (by decide)).1,
   (c8_declared_length exFrame (by decide) (by decide) (by decide)).2⟩

/-! ## Parse bounds on arbitrary input -/

theorem parseFcfStep_inv (data : Nat → Nat) (frame_len o : Nat) :
    ((parseFcfStep data frame_len o).1 = none → (parseFcfStep data frame_len o).2 = []) ∧
    (∀ v o', (parseFcfStep data frame_len o).1 = some (v, o') →
      o' = o + 2 ∧ o' ≤ frame_len ∧
      ∀ p ∈ (parseFcfStep data frame_len o).2, o ≤ p ∧ p < o') := by
  unfold parseFcfStep
  split_ifs with hc
  · simp
  · refine ⟨by simp, ?_⟩
    intro v o' hv
    simp only [Prod.mk.injEq, Option.some.injEq] at hv ⊢
    refine ⟨by omega, by omega, ?_⟩
    intro p hp
    simp only [List.mem_cons, List.not_mem_nil, or_false] at hp
    omega

theorem parseSeqStep_inv (data : Nat → Nat) (frame_len : Nat)
    (fcf : FrameControlField) (o : Nat) :
    ((parseSeqStep data frame_len fcf o).1 = none →
      (parseSeqStep data frame_len fcf o).2 = []) ∧
    (∀ v o', (parseSeqStep data frame_len fcf o).1 = some (v, o') →
      o' = o + (if fcf.sequenceNumberSuppression = 0 then 1 else 0) ∧
      (o ≤ frame_len → o' ≤ frame_len) ∧
      ∀ p ∈ (parseSeqStep data frame_len fcf o).2, o ≤ p ∧ p < o') := by
  unfold parseSeqStep
  split_ifs with hs hc
  · simp
  · refine ⟨by simp, ?_⟩
    intro v o' hv
    simp only [Prod.mk.injEq, Option.some.injEq] at hv ⊢
    refine ⟨by omega, by omega, ?_⟩
    intro p hp
    simp only [List.mem_cons, List.not_mem_nil, or_false] at hp
    omega
  · refine ⟨by simp, ?_⟩
    intro v o' hv
    simp only [Prod.mk.injEq, Option.some.injEq] at hv ⊢
    refine ⟨by omega, by omega, by simp⟩

theorem parseDestPanStep_inv (data : Nat → Nat) (frame_len : Nat)
    (fcf : FrameControlField) (o : Nat) :
    ((parseDestPanStep data frame_len fcf o).1 = none →
      (parseDestPanStep data frame_len fcf o).2 = []) ∧
    (∀ v o', (parseDestPanStep data frame_len fcf o).1 = some (v, o') →
      o' = o + (if fcf.destAddrMode ≠ 0 then 2 else 0) ∧
      (o ≤ frame_len → o' ≤ frame_len) ∧
      ∀ p ∈ (parseDestPanStep data frame_len fcf o).2, o ≤ p ∧ p < o') := by
  unfold parseDestPanStep
  split_ifs with hd hc
  · simp
  · refine ⟨by simp, ?_⟩
    intro v o' hv
    simp only [Prod.mk.injEq, Option.some.injEq] at hv ⊢
    refine ⟨by omega, by omega, ?_⟩
    intro p hp
    simp only [List.mem_cons, List.not_mem_nil, or_false] at hp
    omega
  · refine ⟨by simp, ?_⟩
    intro v o' hv
    simp only [Prod.mk.injEq, Option.some.injEq] at hv ⊢
    refine ⟨by omega, by omega, by simp⟩

theorem parseAddrStep_inv (data : Nat → Nat) (frame_len mode o : Nat) :
    ((parseAddrStep data frame_len mode o).1 = none →
      (parseAddrStep data frame_len mode o).2 = []) ∧
    (∀ v o', (parseAddrStep data frame_len mode o).1 = some (v, o') →
      o' = o + addrLenOf mode ∧
      (o ≤ frame_len → o' ≤ frame_len) ∧
      ∀ p ∈ (parseAddrStep data frame_len mode o).2, o ≤ p ∧ p < o') := by
  unfold parseAddrStep
  split_ifs with hl hc
  · simp
  · refine ⟨by simp, ?_⟩
    intro v o' hv
    simp only [Prod.mk.injEq, Option.some.injEq] at hv ⊢
    refine ⟨by omega, by omega, ?_⟩
    intro p hp
    simp only [sliceIdx, List.mem_map, List.mem_range] at hp
    obtain ⟨k, hk, rfl⟩ := hp
    omega
  · refine ⟨by simp, ?_⟩
    intro v o' hv
    simp only [Prod.mk.injEq, Option.some.injEq] at hv ⊢
    refine ⟨by omega, by omega, by simp⟩

theorem parseSrcPanStep_inv (data : Nat → Nat) (frame_len : Nat)
    (fcf : FrameControlField) (destPan o : Nat) :
    ((parseSrcPanStep data frame_len fcf destPan o).1 = none →
      (parseSrcPanStep data frame_len fcf destPan o).2 = []) ∧
    (∀ v o', (parseSrcPanStep data frame_len fcf destPan o).1 = some (v, o') →
      o' = o + (if fcf.srcAddrMode ≠ 0 ∧ fcf.panIdCompression = 0 then 2 else 0) ∧
      (o ≤ frame_len → o' ≤ frame_len) ∧
      ∀ p ∈ (parseSrcPanStep data frame_len fcf destPan o).2, o ≤ p ∧ p < o') := by
  unfold parseSrcPanStep
  split_ifs with hown hc hsm
  · simp
  · refine ⟨by simp, ?_⟩
    intro v o' hv
    simp only [Prod.mk.injEq, Option.some.injEq] at hv ⊢
    refine ⟨by omega, by omega, ?_⟩
    intro p hp
    simp only [List.mem_cons, List.not_mem_nil, or_false] at hp
    omega
  · refine ⟨by simp, ?_⟩
    intro v o' hv
    simp only [Prod.mk.injEq, Option.some.injEq] at hv ⊢
    refine ⟨by omega, by omega, by simp⟩
  · refine ⟨by simp, ?_⟩
    intro v o' hv
    simp only [Prod.mk.injEq, Option.some.injEq] at hv ⊢
    refine ⟨by omega, by omega, by simp⟩

/-- C2 (amended): for every input whose declared length byte `data[0]` is at
least 1, every input position `Frame::parse` dereferences is strictly below
the declared length, and on success the exposed payload window also stays
below the declared length, with the declared length accounting exactly for
the FCF-implied header plus the payload plus the length and terminator
bytes — so a declared length too short for a declared field makes some
sequential step's bounds check fail and `parse` return false.  (When
`data[0] = 0` the `size_t` computation `data[0] - 1` wraps and the bound
fails; see the counterexample.) -/
theorem c2_parse_reads_bounded (data : Nat → Nat) (hd0 : 1 ≤ byteAt data 0) :
    (∀ p ∈ (parseRaw data).2, p < byteAt data 0) ∧
    (∀ h, (parseRaw data).1 = some h →
      h.payloadStart + h.payloadLen < byteAt data 0 ∧
      byteAt data 0 = h.fcf.headerLen + h.payloadLen + 2) := by
  have hP : parseRaw data = parseRawAux data (byteAt data 0 - 1) := by
    unfold parseRaw
    rw [if_neg (by omega)]
  rw [hP]
  obtain ⟨n1, s1⟩ := parseFcfStep_inv data (byteAt data 0 - 1) 1
  rcases e1 : parseFcfStep data (byteAt data 0 - 1) 1 with ⟨res1, r1⟩
  simp only [e1] at n1 s1
  rcases res1 with - | ⟨fcf1, o1⟩
  · have hr1 : r1 = [] := n1 rfl
    subst hr1
    simp only [parseRawAux, e1]
    constructor
    · intro p hp
      simp only [List.mem_cons, List.not_mem_nil, or_false] at hp
      omega
    · intro h hsome
      simp at hsome
  obtain ⟨ho1, hle1, hb1⟩ := s1 fcf1 o1 rfl
  obtain ⟨n2, s2⟩ := parseSeqStep_inv data (byteAt data 0 - 1) fcf1 o1
  rcases e2 : parseSeqStep data (byteAt data 0 - 1) fcf1 o1 with ⟨res2, r2⟩
  simp only [e2] at n2 s2
  rcases res2 with - | ⟨v2, o2⟩
  · have hr2 : r2 = [] := n2 rfl
    subst hr2
    simp only [parseRawAux, e1, e2]
    constructor
    · intro p hp
      simp only [List.mem_cons, List.mem_append, List.not_mem_nil, or_false,
                 or_assoc] at hp
      rcases hp with rfl | hp
      · omega
      · have := hb1 p hp
        omega
    · intro h hsome
      simp at hsome
  obtain ⟨ho2, hle2, hb2⟩ := s2 v2 o2 rfl
  obtain ⟨n3, s3⟩ := parseDestPanStep_inv data (byteAt data 0 - 1) fcf1 o2
  rcases e3 : parseDestPanStep data (byteAt data 0 - 1) fcf1 o2 with ⟨res3, r3⟩
  simp only [e3] at n3 s3
  rcases res3 with - | ⟨v3, o3⟩
  · have hr3 : r3 = [] := n3 rfl
    subst hr3
    simp only [parseRawAux, e1, e2, e3]
    constructor
    · intro p hp
      simp only [List.mem_cons, List.mem_append, List.not_mem_nil, or_false,
                 or_assoc] at hp
      rcases hp with rfl | hp | hp
      · omega
      · have := hb1 p hp
        omega
      · have := hb2 p hp
        omega
    · intro h hsome
      simp at hsome
  obtain ⟨ho3, hle3, hb3⟩ := s3 v3 o3 rfl
  obtain ⟨n4, s4⟩ := parseAddrStep_inv data (byteAt data 0 - 1) fcf1.destAddrMode o3
  rcases e4 : parseAddrStep data (byteAt data 0 - 1) fcf1.destAddrMode o3 with ⟨res4, r4⟩
  simp only [e4] at n4 s4
  rcases res4 with - | ⟨v4, o4⟩
  · have hr4 : r4 = [] := n4 rfl
    subst hr4
    simp only [parseRawAux, e1, e2, e3, e4]
    constructor
    · intro p hp
      simp only [List.mem_cons, List.mem_append, List.not_mem_nil, or_false,
                 or_assoc] at hp
      rcases hp with rfl | hp | hp | hp
      · omega
      · have := hb1 p hp
        omega
      · have := hb2 p hp
        omega
      · have := hb3 p hp
        omega
    · intro h hsome
      simp at hsome
  obtain ⟨ho4, hle4, hb4⟩ := s4 v4 o4 rfl
  obtain ⟨n5, s5⟩ := parseSrcPanStep_inv data (byteAt data 0 - 1) fcf1 v3 o4
  rcases e5 : parseSrcPanStep data (byteAt data 0 - 1) fcf1 v3 o4 with ⟨res5, r5⟩
  simp only [e5] at n5 s5
  rcases res5 with - | ⟨v5, o5⟩
  · have hr5 : r5 = [] := n5 rfl
    subst hr5
    simp only [parseRawAux, e1, e2, e3, e4, e5]
    constructor
    · intro p hp
      simp only [List.mem_cons, List.mem_append, List.not_mem_nil, or_false,
                 or_assoc] at hp
      rcases hp with rfl | hp | hp | hp | hp
      · omega
      · have := hb1 p hp
        omega
      · have := hb2 p hp
        omega
      · have := hb3 p hp
        omega
      · have := hb4 p hp
        omega
    · intro h hsome
      simp at hsome
  obtain ⟨ho5, hle5, hb5⟩ := s5 v5 o5 rfl
  obtain ⟨n6, s6⟩ := parseAddrStep_inv data (byteAt data 0 - 1) fcf1.srcAddrMode o5
  rcases e6 : parseAddrStep data (byteAt data 0 - 1) fcf1.srcAddrMode o5 with ⟨res6, r6⟩
  simp only [e6] at n6 s6
  rcases res6 with - | ⟨v6, o6⟩
  · have hr6 : r6 = [] := n6 rfl
    subst hr6
    simp only [parseRawAux, e1, e2, e3, e4, e5, e6]
    constructor
    · intro p hp
      simp only [List.mem_cons, List.mem_append, List.not_mem_nil, or_false,
                 or_assoc] at hp
      rcases hp with rfl | hp | hp | hp | hp | hp
      · omega
      · have := hb1 p hp
        omega
      · have := hb2 p hp
        omega
      · have := hb3 p hp
        omega
      · have := hb4 p hp
        omega
      · have := hb5 p hp
        omega
    · intro h hsome
      simp at hsome
  obtain ⟨ho6, hle6, hb6⟩ := s6 v6 o6 rfl
  simp only [parseRawAux, e1, e2, e3, e4, e5, e6]
  constructor
  · intro p hp
    simp only [List.mem_cons, List.mem_append, List.not_mem_nil, or_false,
               or_assoc] at hp
    rcases hp with rfl | hp | hp | hp | hp | hp | hp
    · omega
    · have := hb1 p hp
      omega
    · have := hb2 p hp
      omega
    · have := hb3 p hp
      omega
    · have := hb4 p hp
      omega
    · have := hb5 p hp
      omega
    · have := hb6 p hp
      omega
  · intro h hsome
    rw [Option.some.injEq] at hsome
    subst hsome
    unfold FrameControlField.headerLen
    dsimp only
    constructor
    · omega
    · omega

/-- Counterexample for C2 as stated: on the all-zero input the declared
length byte is 0, yet `parse` dereferences positions 1, 2 and 3 (and
position 0 itself), because `size_t frame_len = data[0] - 1` wraps to
`SIZE_MAX` and every bounds check passes. -/
theorem c2_counterexample :
    byteAt (fun _ => 0) 0 = 0 ∧
    (parseRaw (fun _ => 0)).2 = [0, 1, 2, 3] ∧
    1 ∈ (parseRaw (fun _ => 0)).2 := by
  decide

/-- Witness for C2: on the concrete bytes built from `exFrame` the declared
length byte is 22 ≥ 1, every dereferenced position is below 22, and the
successful parse accounts for the declared length exactly. -/
theorem c2_parse_reads_bounded_witness :
    1 ≤ byteAt (dataOf exFrame.buildBytes) 0 ∧
    (∀ p ∈ (parseRaw (dataOf exFrame.buildBytes)).2,
      p < byteAt (dataOf exFrame.buildBytes) 0) ∧
    (∀ h, (parseRaw (dataOf exFrame.buildBytes)).1 = some h →
      h.payloadStart + h.payloadLen < byteAt (dataOf exFrame.buildBytes) 0 ∧
      byteAt (dataOf exFrame.buildBytes) 0 = h.fcf.headerLen + h.payloadLen + 2) :=
  ⟨by decide, (c2_parse_reads_bounded (dataOf exFrame.buildBytes) (by decide)).1,
   (c2_parse_reads_bounded (dataOf exFrame.buildBytes) (by decide)).2⟩

/-! ## RingBuffer invariant -/

theorem write_capacity (rb : RingBuffer) (b : Nat) :
    (rb.write b).2.capacity = rb.capacity := by
  unfold RingBuffer.write
  split_ifs <;> rfl

theorem write_wf (rb : RingBuffer) (b : Nat) (h : rb.count ≤ rb.capacity) :
    (rb.write b).2.count ≤ (rb.write b).2.capacity := by
  unfold RingBuffer.write
  split_ifs with hf
  · exact h
  · simp only [RingBuffer.isFull, beq_iff_eq] at hf
    simp only []
    omega

theorem writeArray_capacity (rb : RingBuffer) (l : List Nat) :
    (rb.writeArray l).2.capacity = rb.capacity := by
  induction l generalizing rb with
  | nil => rfl
  | cons b rest ih =>
    rw [RingBuffer.writeArray]
    rcases hw : rb.write b with ⟨ok, rb'⟩
    rcases ok with - | -
    · rfl
    · have hcap : rb'.capacity = rb.capacity := by
        have := write_capacity rb b
        rw [hw] at this
        exact this
      simpa [hcap] using ih rb'

theorem writeArray_wf (rb : RingBuffer) (l : List Nat) (h : rb.count ≤ rb.capacity) :
    (rb.writeArray l).2.count ≤ (rb.writeArray l).2.capacity := by
  induction l generalizing rb with
  | nil => exact h
  | cons b rest ih =>
    rw [RingBuffer.writeArray]
    rcases hw : rb.write b with ⟨ok, rb'⟩
    rcases ok with - | -
    · exact h
    · have hwf : rb'.count ≤ rb'.capacity := by
        have := write_wf rb b h
        rw [hw] at this
        exact this
      simpa using ih rb' hwf

theorem read_capacity (rb : RingBuffer) : rb.read.2.capacity = rb.capacity := by
  unfold RingBuffer.read
  split_ifs <;> rfl

theorem read_wf (rb : RingBuffer) (h : rb.count ≤ rb.capacity) :
    rb.read.2.count ≤ rb.read.2.capacity := by
  unfold RingBuffer.read
  split_ifs with ha
  · simp only []
    omega
  · exact h

theorem readArray_capacity (rb : RingBuffer) (n : Nat) :
    (rb.readArray n).2.capacity = rb.capacity := by
  induction n generalizing rb with
  | zero => rfl
  | succ m ih =>
    rw [RingBuffer.readArray]
    split_ifs with ha
    · simpa [read_capacity rb] using ih rb.read.2
    · rfl

theorem readArray_wf (rb : RingBuffer) (n : Nat) (h : rb.count ≤ rb.capacity) :
    (rb.readArray n).2.count ≤ (rb.readArray n).2.capacity := by
  induction n generalizing rb with
  | zero => exact h
  | succ m ih =>
    rw [RingBuffer.readArray]
    split_ifs with ha
    · simpa using ih rb.read.2 (read_wf rb h)
    · exact h

theorem apply_wf (rb : RingBuffer) (op : RBOp) (h : rb.count ≤ rb.capacity) :
    (op.apply rb).count ≤ (op.apply rb).capacity := by
  rcases op with b | l | - | n | - | -
  · exact write_wf rb b h
  · exact writeArray_wf rb l h
  · exact read_wf rb h
  · exact readArray_wf rb n h
  · exact h
  · simp [RBOp.apply, RingBuffer.clear]

theorem runOps_wf (rb : RingBuffer) (ops : List RBOp) (h : rb.count ≤ rb.capacity) :
    (runOps rb ops).count ≤ (runOps rb ops).capacity := by
  induction ops generalizing rb with
  | nil => exact h
  | cons op rest ih =>
    rw [runOps, List.foldl_cons]
    exact ih (op.apply rb) (apply_wf rb op h)

/-- C7: starting from any ring buffer whose byte count does not exceed its
capacity, after any sequence of `write` / `writeArray` / `read` /
`readArray` / `peek` / `clear` operations the accounting invariant
`available() + availableForWrite() == capacity` holds; a `write` on a full
buffer returns false and leaves the state unchanged; a `read` on an empty
buffer returns 0 and leaves the state unchanged. -/
theorem c7_ringbuffer_invariant (rb : RingBuffer) (ops : List RBOp)
    (hwf : rb.count ≤ rb.capacity) :
    (runOps rb ops).available + (runOps rb ops).availableForWrite =
      (runOps rb ops).capacity ∧
    (∀ b, rb.isFull = true → rb.write b = (false, rb)) ∧
    (rb.count = 0 → rb.read = (0, rb)) := by
  refine ⟨?_, ?_, ?_⟩
  · have h := runOps_wf rb ops hwf
    unfold RingBuffer.available RingBuffer.availableForWrite
    omega
  · intro b hf
    unfold RingBuffer.write
    rw [if_pos hf]
  · intro he
    unfold RingBuffer.read RingBuffer.available
    rw [if_neg (by omega)]

/-- Witness for C7: a concrete buffer of capacity 4 driven through every
kind of operation, including an overflowing bulk write. -/
theorem c7_ringbuffer_invariant_witness :
    (RingBuffer.fresh 4).count ≤ (RingBuffer.fresh 4).capacity ∧
    ((runOps (RingBuffer.fresh 4)
        [.writeOne 1, .writeArr [2, 3, 4, 5, 6], .readOne, .peekOne, .readArr 2,
         .clearAll, .writeOne 7]).available +
      (runOps (RingBuffer.fresh 4)
        [.writeOne 1, .writeArr [2, 3, 4, 5, 6], .readOne, .peekOne, .readArr 2,
         .clearAll, .writeOne 7]).availableForWrite =
      (runOps (RingBuffer.fresh 4)
        [.writeOne 1, .writeArr [2, 3, 4, 5, 6], .readOne, .peekOne, .readArr 2,
         .clearAll, .writeOne 7]).capacity ∧
     (∀ b, (RingBuffer.fresh 4).isFull = true →
        (RingBuffer.fresh 4).write b = (false, RingBuffer.fresh 4)) ∧
     ((RingBuffer.fresh 4).count = 0 →
        (RingBuffer.fresh 4).read = (0, RingBuffer.fresh 4))) :=
  ⟨by decide,
   c7_ringbuffer_invariant (RingBuffer.fresh 4)
     [.writeOne 1, .writeArr [2, 3, 4, 5, 6], .readOne, .peekOne, .readArr 2,
      .clearAll, .writeOne 7] (by decide)⟩

/-! ## Send path with confirmations -/

theorem sendWCLoop_step_sendFail (outcomes : Nat → TxOutcome) (fuel : Nat)
    (retry : Int) (seq attempt : Nat) (used : List Nat)
    (h : outcomes attempt = .sendFail) :
    sendWCLoop outcomes (fuel + 1) retry seq attempt used =
      if retry - 1 ≤ 0 then
        { attempts := attempt + 1, seqsUsed := used ++ [seq],
          seq := (seq + 1) % 256, retryLeft := retry - 1 }
      else sendWCLoop outcomes fuel (retry - 1) seq (attempt + 1) (used ++ [seq]) := by
  rw [sendWCLoop]
  simp [h]

theorem sendWCLoop_step_txFail (outcomes : Nat → TxOutcome) (fuel : Nat)
    (retry : Int) (seq attempt : Nat) (used : List Nat)
    (h : outcomes attempt = .txFail) :
    sendWCLoop outcomes (fuel + 1) retry seq attempt used =
      if retry - 1 ≤ 0 then
        { attempts := attempt + 1, seqsUsed := used ++ [seq],
          seq := ((seq + 1) % 256 + 1) % 256, retryLeft := retry - 1 }
      else
        sendWCLoop outcomes fuel (retry - 1) ((seq + 1) % 256) (attempt + 1)
          (used ++ [seq]) := by
  rw [sendWCLoop]
  simp [h]

theorem sendWCLoop_step_timeout (outcomes : Nat → TxOutcome) (fuel : Nat)
    (retry : Int) (seq attempt : Nat) (used : List Nat)
    (h : outcomes attempt = .timeout) :
    sendWCLoop outcomes (fuel + 1) retry seq attempt used =
      { attempts := attempt + 1, seqsUsed := used ++ [seq],
        seq := (seq + 1) % 256, retryLeft := retry - 1 } := by
  rw [sendWCLoop]
  simp [h]

theorem sendWCLoop_step_txDone (outcomes : Nat → TxOutcome) (fuel : Nat)
    (retry : Int) (seq attempt : Nat) (used : List Nat)
    (h : outcomes attempt = .txDone) :
    sendWCLoop outcomes (fuel + 1) retry seq attempt used =
      { attempts := attempt + 1, seqsUsed := used ++ [seq],
        seq := ((seq + 1) % 256 + 1) % 256, retryLeft := retry } := by
  rw [sendWCLoop]
  simp [h]

theorem sendWCLoop_sendFail (N : Nat) (h1 : 1 ≤ N) :
    ∀ (fuel : Nat), N ≤ fuel → ∀ (seq attempt : Nat) (used : List Nat),
    sendWCLoop (fun _ => .sendFail) fuel (N : Int) seq attempt used =
      { attempts := attempt + N, seqsUsed := used ++ List.replicate N seq,
        seq := (seq + 1) % 256, retryLeft := 0 } := by
  induction N with
  | zero => omega
  | succ k ih =>
    intro fuel hf seq attempt used
    rcases fuel with - | m
    · omega
    rw [sendWCLoop_step_sendFail _ _ _ _ _ _ rfl]
    rcases Nat.eq_zero_or_pos k with hk | hk
    · subst hk
      rw [if_pos (by omega)]
      congr 1
    · rw [if_neg (by omega)]
      have hcast : ((k + 1 : Nat) : Int) - 1 = (k : Int) := by omega
      rw [hcast, ih hk m (by omega) seq (attempt + 1) (used ++ [seq])]
      congr 1 <;> first
        | omega
        | simp [List.append_assoc, List.replicate_succ]

theorem sendWCLoop_txFail (N : Nat) (h1 : 1 ≤ N) :
    ∀ (fuel : Nat), N ≤ fuel → ∀ (seq attempt : Nat) (used : List Nat),
    (sendWCLoop (fun _ => .txFail) fuel (N : Int) seq attempt used).attempts =
      attempt + N ∧
    (sendWCLoop (fun _ => .txFail) fuel (N : Int) seq attempt used).seq =
      (seq + N + 1) % 256 ∧
    (sendWCLoop (fun _ => .txFail) fuel (N : Int) seq attempt used).retryLeft = 0 := by
  induction N with
  | zero => omega
  | succ k ih =>
    intro fuel hf seq attempt used
    rcases fuel with - | m
    · omega
    rw [sendWCLoop_step_txFail _ _ _ _ _ _ rfl]
    rcases Nat.eq_zero_or_pos k with hk | hk
    · subst hk
      rw [if_pos (by omega)]
      dsimp only
      refine ⟨by omega, by omega, by omega⟩
    · rw [if_neg (by omega)]
      have hcast : ((k + 1 : Nat) : Int) - 1 = (k : Int) := by omega
      rw [hcast]
      obtain ⟨ha, hs, hr⟩ := ih hk m (by omega) ((seq + 1) % 256) (attempt + 1)
        (used ++ [seq])
      refine ⟨by rw [ha]; omega, ?_, hr⟩
      rw [hs]
      omega

/-- C3 (amended): an acknowledgment timeout is *not* handled like a
radio-reported transmit failure.  When the first attempt of
`sendWithConfirmations` times out (the confirmation state is still
`WAITING_FOR_CONFIRMATION` at the deadline), the retry budget is decremented
and the inter-attempt delay is taken, but the do/while loop then exits —
whose condition only continues on `CONFIRMATION_ERROR` — so the frame is
not retransmitted and the stream layer does not advance the sequence number
(the only advance is the one the successful radio hand-off already made in
`transmit_channel`). -/
theorem c3_timeout_exits_loop (outcomes : Nat → TxOutcome) (budget : Int) (seq : Nat)
    (h : outcomes 0 = .timeout) :
    sendWithConfirmations outcomes budget seq =
      { attempts := 1, seqsUsed := [seq], seq := (seq + 1) % 256,
        retryLeft := budget - 1 } := by
  unfold sendWithConfirmations
  rw [sendWCLoop_step_timeout outcomes budget.toNat budget seq 0 [] h]
  simp

/-- Witness for C3's amended theorem at concrete inputs: budget 5, sequence
number 7, every attempt timing out. -/
theorem c3_timeout_exits_loop_witness :
    (fun _ => TxOutcome.timeout) 0 = TxOutcome.timeout ∧
    sendWithConfirmations (fun _ => TxOutcome.timeout) 5 7 =
      { attempts := 1, seqsUsed := [7], seq := 8, retryLeft := 4 } := by
  refine ⟨rfl, ?_⟩
  rw [c3_timeout_exits_loop (fun _ => TxOutcome.timeout) 5 7 rfl]
  decide

/-- Counterexample for C3 as stated: with retry budget 2 and sequence number
0, all-timeouts makes only one transmit attempt while all radio-reported
failures make two — a timeout is not retried at all — and the radio-failure
retry is not even built with the same sequence number (it uses 1 after 0),
since the accepted hand-off already incremented the frame sequence number. -/
theorem c3_counterexample :
    (sendWithConfirmations (fun _ => .timeout) 2 0).attempts = 1 ∧
    (sendWithConfirmations (fun _ => .txFail) 2 0).attempts = 2 ∧
    (sendWithConfirmations (fun _ => .timeout) 2 0).seqsUsed = [0] ∧
    (sendWithConfirmations (fun _ => .txFail) 2 0).seqsUsed = [0, 1] ∧
    (sendWithConfirmations (fun _ => .timeout) 2 0).seq = 1 := by
  decide

/-- C4 (amended): with retry budget `N ≥ 1` and every attempt failing,
`sendWithConfirmations` terminates after exactly `N` attempts.  When every
attempt is a synchronous hand-off refusal (`send` returns false), the same
frame is rebuilt with the same sequence number every time and the outbound
sequence number advances exactly once in total, at retry exhaustion.  When
every attempt is accepted by the radio and then reported failed, each
hand-off also advances the frame sequence number, for `N + 1` advances in
total. -/
theorem c4_retry_exhaustion (N : Nat) (seq : Nat) (h1 : 1 ≤ N) :
    sendWithConfirmations (fun _ => .sendFail) (N : Int) seq =
      { attempts := N, seqsUsed := List.replicate N seq, seq := (seq + 1) % 256,
        retryLeft := 0 } ∧
    (sendWithConfirmations (fun _ => .txFail) (N : Int) seq).attempts = N ∧
    (sendWithConfirmations (fun _ => .txFail) (N : Int) seq).seq =
      (seq + N + 1) % 256 := by
  have htn : ((N : Int)).toNat = N := Int.toNat_natCast N
  unfold sendWithConfirmations
  rw [htn]
  refine ⟨?_, ?_, ?_⟩
  · simpa using sendWCLoop_sendFail N h1 (N + 1) (by omega) seq 0 []
  · have := (sendWCLoop_txFail N h1 (N + 1) (by omega) seq 0 []).1
    simpa using this
  · have := (sendWCLoop_txFail N h1 (N + 1) (by omega) seq 0 []).2.1
    simpa using this

/-- Witness for C4's amended theorem: budget 3, sequence number 10. -/
theorem c4_retry_exhaustion_witness :
    1 ≤ 3 ∧
    sendWithConfirmations (fun _ => .sendFail) ((3 : Nat) : Int) 10 =
      { attempts := 3, seqsUsed := List.replicate 3 10, seq := 11, retryLeft := 0 } ∧
    (sendWithConfirmations (fun _ => .txFail) ((3 : Nat) : Int) 10).attempts = 3 ∧
    (sendWithConfirmations (fun _ => .txFail) ((3 : Nat) : Int) 10).seq = 14 := by
  have h := c4_retry_exhaustion 3 10 (by decide)
  exact ⟨by decide, h.1, h.2.1, h.2.2⟩

/-- Counterexample for C4 as stated: a single radio-reported transmit
failure (retry budget 1) leaves the outbound sequence number at 2: the
accepted hand-off incremented it once and retry exhaustion incremented it
again — two advances, not exactly one. -/
theorem c4_counterexample :
    (sendWithConfirmations (fun _ => .txFail) 1 0).attempts = 1 ∧
    (sendWithConfirmations (fun _ => .txFail) 1 0).seq = 2 ∧
    (sendWithConfirmations (fun _ => .txFail) 1 0).seq ≠ (0 + 1) % 256 := by
  decide

/-! ## Sequence-number auto-increment flag -/

/-- C9: `setAutoIncrementSequenceNumber(false)` has no effect on
sequence-number advancement: `transmit_channel` behaves identically for
either flag value and unconditionally increments the frame sequence number
(mod 256) exactly when the hand-off to the radio succeeds; consequently at
the stream layer every radio-accepted attempt advances the sequence number —
a confirmed single-attempt send advances it twice (hand-off plus
confirmation), and `N` radio-reported failures advance it `N + 1` times
(hand-offs plus retry exhaustion). -/
theorem c9_auto_increment_ignored :
    (∀ (t : Transceiver) (b : Bool) (ch : Int) (cc sOk tOk : Bool),
       (t.setAutoIncrementSequenceNumber b).transmit_channel ch cc sOk tOk =
         ((t.transmit_channel ch cc sOk tOk).1,
          ((t.transmit_channel ch cc sOk tOk).2).setAutoIncrementSequenceNumber b)) ∧
    (∀ (t : Transceiver) (ch : Int) (cc sOk tOk : Bool),
       (t.transmit_channel ch cc sOk tOk).1 = .ok →
         (t.transmit_channel ch cc sOk tOk).2.sequenceNumber =
           (t.sequenceNumber + 1) % 256) ∧
    (∀ (t : Transceiver) (ch : Int) (cc sOk tOk : Bool),
       (t.transmit_channel ch cc sOk tOk).1 ≠ .ok →
         (t.transmit_channel ch cc sOk tOk).2.sequenceNumber = t.sequenceNumber) ∧
    (∀ (outcomes : Nat → TxOutcome) (budget : Int) (seq : Nat),
       outcomes 0 = .txDone →
         (sendWithConfirmations outcomes budget seq).seq = (seq + 2) % 256) ∧
    (∀ (N seq : Nat), 1 ≤ N →
       (sendWithConfirmations (fun _ => .txFail) (N : Int) seq).seq =
         (seq + N + 1) % 256) := by
  refine ⟨?_, ?_, ?_, ?_, ?_⟩
  · intro t b ch cc sOk tOk
    unfold Transceiver.transmit_channel Transceiver.setAutoIncrementSequenceNumber
    split_ifs <;> rfl
  · intro t ch cc sOk tOk hok
    unfold Transceiver.transmit_channel at hok ⊢
    split_ifs at hok ⊢
    all_goals simp_all
  · intro t ch cc sOk tOk hok
    unfold Transceiver.transmit_channel at hok ⊢
    split_ifs at hok ⊢
    all_goals simp_all
  · intro outcomes budget seq h
    unfold sendWithConfirmations
    rw [sendWCLoop_step_txDone outcomes budget.toNat budget seq 0 [] h]
    dsimp only
    omega
  · intro N seq h1
    have htn : ((N : Int)).toNat = N := Int.toNat_natCast N
    unfold sendWithConfirmations
    rw [htn]
    have := (sendWCLoop_txFail N h1 (N + 1) (by omega) seq 0 []).2.1
    simpa using this

/-- Witness for C9 at concrete inputs: an active transceiver with sequence
number 9 and the flag lowered behaves like one with the flag raised; its
successful hand-off increments the sequence number to 10; a confirmed
stream send from 5 ends at 7; two radio-reported failures from 5 end at 8. -/
theorem c9_auto_increment_ignored_witness :
    (exTr.setAutoIncrementSequenceNumber false).transmit_channel 11 true true true =
      ((exTr.transmit_channel 11 true true true).1,
       ((exTr.transmit_channel 11 true true true).2).setAutoIncrementSequenceNumber
         false) ∧
    (exTr.transmit_channel 11 true true true).1 = .ok ∧
    (exTr.transmit_channel 11 true true true).2.sequenceNumber =
      (exTr.sequenceNumber + 1) % 256 ∧
    (fun _ => TxOutcome.txDone) 0 = TxOutcome.txDone ∧
    (sendWithConfirmations (fun _ => TxOutcome.txDone) 2 5).seq = (5 + 2) % 256 ∧
    1 ≤ 2 ∧
    (sendWithConfirmations (fun _ => TxOutcome.txFail) ((2 : Nat) : Int) 5).seq =
      (5 + 2 + 1) % 256 :=
  ⟨c9_auto_increment_ignored.1 exTr false 11 true true true,
   by decide,
   c9_auto_increment_ignored.2.1 exTr 11 true true true (by decide),
   rfl,
   c9_auto_increment_ignored.2.2.2.1 (fun _ => TxOutcome.txDone) 2 5 rfl,
   by decide,
   c9_auto_increment_ignored.2.2.2.2 2 5 (by decide)⟩

/-! ## Stream receive path -/

theorem writeArray_all (rb : RingBuffer) (l : List Nat)
    (hwf : rb.count ≤ rb.capacity) (hfit : l.length ≤ rb.capacity - rb.count) :
    (rb.writeArray l).1 = l.length ∧
    (rb.writeArray l).2.count = rb.count + l.length := by
  induction l generalizing rb with
  | nil => simp [RingBuffer.writeArray]
  | cons b rest ih =>
    have hnotfull : rb.isFull = false := by
      simp only [RingBuffer.isFull, beq_eq_false_iff_ne, ne_eq]
      simp only [List.length_cons] at hfit
      omega
    have hw : rb.write b =
        (true, { rb with
                 buffer := rb.buffer.set rb.tail b
                 tail := (rb.tail + 1) % rb.capacity
                 count := rb.count + 1 }) := by
      unfold RingBuffer.write
      rw [hnotfull]
      simp
    rw [RingBuffer.writeArray, hw]
    have hrec := ih { rb with
                      buffer := rb.buffer.set rb.tail b
                      tail := (rb.tail + 1) % rb.capacity
                      count := rb.count + 1 }
      (by simp only [List.length_cons] at hfit; simp only []; omega)
      (by simp only [List.length_cons] at hfit; simp only []; omega)
    simp only [List.length_cons] at hrec ⊢
    omega

/-- The post-state of an accepting first delivery in `receive`. -/
def acceptedState (s : StreamState) (f : Frame) : StreamState :=
  { s with
    frame := f
    last_seq := (f.sequenceNumber : Int)
    rx_buffer := (s.rx_buffer.writeArray f.payload).2 }

/-- A frame repeating the last accepted sequence number is discarded:
`receive` returns false and only the scratch parse frame changes, whatever
occupies the dead packet region (`stale`). -/
theorem receive_duplicate (s : StreamState) (bytes : List Nat) (f : Frame)
    (stale : Nat → Nat)
    (hseqnum : s.isSequenceNumbers = true)
    (hopen : s.is_open_frame = false)
    (hparse : parseFrame (dataOf bytes) = some f)
    (hdup : s.last_seq ≠ -1 ∧ (f.sequenceNumber : Int) = s.last_seq) :
    s.receive (some bytes) stale = (false, { s with frame := f }) := by
  unfold StreamState.receive
  rw [if_neg (by rw [hopen]; simp)]
  simp only [hparse]
  rw [if_pos (show ({ s with frame := f } : StreamState).isSequenceNumbers = true
        from hseqnum)]
  rw [if_pos (show ({ s with frame := f } : StreamState).last_seq ≠ -1 ∧
        (f.sequenceNumber : Int) = ({ s with frame := f } : StreamState).last_seq
        from hdup)]

/-- The first frame of a session is accepted and its payload delivered
within the same call (the packet is still live there), whatever occupies
the dead packet region (`stale`). -/
theorem receive_accept_first (s : StreamState) (bytes : List Nat) (f : Frame)
    (stale : Nat → Nat)
    (hseqnum : s.isSequenceNumbers = true)
    (hopen : s.is_open_frame = false)
    (hparse : parseFrame (dataOf bytes) = some f)
    (hfresh : s.last_seq = -1)
    (hfit : f.payload.length ≤ s.rx_buffer.availableForWrite) :
    s.receive (some bytes) stale = (true, acceptedState s f) := by
  unfold StreamState.receive
  rw [if_neg (by rw [hopen]; simp)]
  simp only [hparse]
  rw [if_pos (show ({ s with frame := f } : StreamState).isSequenceNumbers = true
        from hseqnum)]
  rw [if_neg (show ¬(({ s with frame := f } : StreamState).last_seq ≠ -1 ∧
        (f.sequenceNumber : Int) = ({ s with frame := f } : StreamState).last_seq)
        by rw [show ({ s with frame := f } : StreamState).last_seq = s.last_seq
                 from rfl, hfresh]
           simp)]
  unfold StreamState.storePayload
  rw [if_neg (show ¬(f.payload.length > s.rx_buffer.availableForWrite) by omega)]
  rfl

/-- C5: with sequence numbering on and no backpressure state, for an inbound
packet that parses to frame `f` (for any contents `stale` of the dead packet
region, which these paths never read):
  * if at least one frame was already accepted and `f` repeats the last
    accepted sequence number, `receive` returns false and delivers nothing —
    the RX buffer, `last_seq` and the pending flag are unchanged (only the
    scratch parse frame is overwritten);
  * the first frame of a session is accepted unconditionally and delivered;
  * feeding the same frame bytes twice from a fresh session delivers the
    payload exactly once: the second call is discarded as a retransmission
    and leaves the state unchanged. -/
theorem c5_duplicate_suppression (s : StreamState) (bytes : List Nat) (f : Frame)
    (stale : Nat → Nat)
    (hseqnum : s.isSequenceNumbers = true)
    (hopen : s.is_open_frame = false)
    (hparse : parseFrame (dataOf bytes) = some f) :
    ((s.last_seq ≠ -1 ∧ (f.sequenceNumber : Int) = s.last_seq) →
       s.receive (some bytes) stale = (false, { s with frame := f })) ∧
    (s.last_seq = -1 → f.payload.length ≤ s.rx_buffer.availableForWrite →
       s.receive (some bytes) stale = (true, acceptedState s f)) ∧
    (s.last_seq = -1 → f.payload.length ≤ s.rx_buffer.availableForWrite →
       ((s.receive (some bytes) stale).2).receive (some bytes) stale =
         (false, acceptedState s f)) := by
  refine ⟨fun hdup => receive_duplicate s bytes f stale hseqnum hopen hparse hdup,
          fun hfresh hfit =>
            receive_accept_first s bytes f stale hseqnum hopen hparse hfresh hfit,
          fun hfresh hfit => ?_⟩
  rw [receive_accept_first s bytes f stale hseqnum hopen hparse hfresh hfit]
  have hdup2 := receive_duplicate (acceptedState s f) bytes f stale hseqnum hopen
    hparse ⟨show (f.sequenceNumber : Int) ≠ -1 by omega, rfl⟩
  simp only []
  rw [hdup2]
  rfl

/-- Witness for C5 on concrete inputs: `exStream` fed the bytes of
`exFrame` twice delivers the 3-byte payload once and discards the repeat. -/
theorem c5_duplicate_suppression_witness :
    exStream.isSequenceNumbers = true ∧
    exStream.is_open_frame = false ∧
    parseFrame (dataOf exFrame.buildBytes) = some exFrame ∧
    exStream.last_seq = -1 ∧
    exFrame.payload.length ≤ exStream.rx_buffer.availableForWrite ∧
    exStream.receive (some exFrame.buildBytes) (fun _ => 0) =
      (true, acceptedState exStream exFrame) ∧
    ((exStream.receive (some exFrame.buildBytes) (fun _ => 0)).2).receive
        (some exFrame.buildBytes) (fun _ => 0) =
      (false, acceptedState exStream exFrame) :=
  ⟨by decide, by decide, by decide, by decide, by decide,
   (c5_duplicate_suppression exStream exFrame.buildBytes exFrame (fun _ => 0)
      (by decide) (by decide) (by decide)).2.1 (by decide) (by decide),
   (c5_duplicate_suppression exStream exFrame.buildBytes exFrame (fun _ => 0)
      (by decide) (by decide) (by decide)).2.2 (by decide) (by decide)⟩

/-- C6 (code bug): the claim matches the spec's clear intent ("payload
retained until space frees up, never truncation or silent loss"), but the
code does not keep the pending frame's payload bytes.  `frame.payload` is a
pointer into the stack-local `frame_data_t packet` of the `receive()`
invocation that parsed the frame (Frame.cpp:271,
ESP32TransceiverStreamIEEE802_15_4.h:404); that object is dead when a later
call's pending branch runs `rx_buffer.writeArray(frame.payload,
frame.payloadLen)` (line 412), so the bytes delivered are whatever then
occupies the dead region, not the frame's payload.  Concretely: `exFrame`'s
3-byte payload `[72, 73, 74]` overflows a 2-byte RX buffer and is recorded
pending with no progress; while space is short nothing is touched; once
space is free the delivering call writes 3 bytes read through the dangling
pointer — `[0, 0, 0]` if the region now holds zeros, `[9, 9, 9]` if it
holds nines — never guaranteed to be `[72, 73, 74]`. -/
theorem c6_dangling_pending_payload :
    exStreamTiny.receive (some exFrame.buildBytes) (fun _ => 0) =
      (false, { exStreamTiny with
                frame := exFrame
                last_seq := (exFrame.sequenceNumber : Int)
                is_open_frame := true }) ∧
    exStreamPend.receive none (fun _ => 0) = (false, exStreamPend) ∧
    (exStreamPendFit.receive none (fun _ => 0)).1 = true ∧
    (exStreamPendFit.receive none (fun _ => 0)).2.is_open_frame = false ∧
    ((exStreamPendFit.receive none (fun _ => 0)).2.rx_buffer.readArray 3).1 =
      [0, 0, 0] ∧
    ((exStreamPendFit.receive none (fun _ => 9)).2.rx_buffer.readArray 3).1 =
      [9, 9, 9] ∧
    exStreamPendFit.frame.payload = [72, 73, 74] := by
  decide

/-- C10: when no payload byte is available — the RX ring buffer is empty, no
pending frame exists and no packet arrives — `read()` returns 0, not a
negative sentinel; and a genuinely received `0x00` payload byte at the head
of the RX buffer makes `read()` return 0 as well, so the two cases are
indistinguishable by the return value.  (`stale`, the contents of the dead
packet region, is irrelevant on these paths and universally quantified.) -/
theorem c10_read_returns_zero (s s2 : StreamState) (stale : Nat → Nat) :
    (s.is_open_frame = false → s.rx_buffer.count = 0 →
       (s.streamRead none stale).1 = 0) ∧
    (s2.is_open_frame = false → s2.rx_buffer.peek = some 0 →
       (s2.streamRead none stale).1 = 0) := by
  constructor
  · intro hopen hempty
    have hrecv : s.receive none stale = (false, s) := by
      unfold StreamState.receive
      rw [if_neg (by rw [hopen]; simp)]
    unfold StreamState.streamRead
    rw [hrecv]
    simp only []
    unfold RingBuffer.read RingBuffer.available
    rw [if_neg (by omega)]
  · intro hopen hpeek
    have hrecv : s2.receive none stale = (false, s2) := by
      unfold StreamState.receive
      rw [if_neg (by rw [hopen]; simp)]
    unfold RingBuffer.peek at hpeek
    unfold StreamState.streamRead
    rw [hrecv]
    simp only []
    unfold RingBuffer.read
    split_ifs at hpeek ⊢ with h1
    simpa using hpeek

/-- Witness for C10 on concrete states: an empty buffer and a buffer holding
one genuine zero byte both make `read()` return 0. -/
theorem c10_read_returns_zero_witness :
    exStream.is_open_frame = false ∧ exStream.rx_buffer.count = 0 ∧
    exStreamZero.is_open_frame = false ∧ exStreamZero.rx_buffer.peek = some 0 ∧
    (exStream.streamRead none (fun _ => 0)).1 = 0 ∧
    (exStreamZero.streamRead none (fun _ => 0)).1 = 0 :=
  ⟨by decide, by decide, by decide, by decide,
   (c10_read_returns_zero exStream exStreamZero (fun _ => 0)).1
     (by decide) (by decide),
   (c10_read_returns_zero exStream exStreamZero (fun _ => 0)).2
     (by decide) (by decide)⟩

end Ieee802154
